import Mathlib

/-!
Verification of the Job Matching and Listing Lifecycle Engine
(`src/backend/server.js`, `src/finder/finder.js`) against its
natural-language specification.

The JavaScript source is shallowly embedded: strings are `String`
(logically a list of `Char`), JS numbers used for scores are modelled by
exact rationals, SQL tables by lists of row structures, and the fallible
external collaborators (the summarizer) by explicit function parameters.
Character classes of the source regexes are expressed through `Char.toNat`
codes so that the embedded definitions stay executable and the proofs can
reason by `omega` over code points.
-/

/-! ## JS text primitives -/

/-- Code of `\s` (JS whitespace class, restricted to its ASCII members:
space, tab, line feed, carriage return, vertical tab, form feed). -/
def isSpaceJS (c : Char) : Bool :=
  c.toNat == 32 || c.toNat == 9 || c.toNat == 10 || c.toNat == 13 ||
  c.toNat == 11 || c.toNat == 12

/-- Model of `String.prototype.toLowerCase` on one character (exact on
ASCII, which is all the keyword taxonomy and the normalizer use). -/
def jsToLower (c : Char) : Char :=
  if 65 ≤ c.toNat && c.toNat ≤ 90 then Char.ofNat (c.toNat + 32) else c

/-- Character class `[a-z0-9\s\+\#\.]` of `normalizeText`:
the characters the `replace` in the source keeps. -/
def isKeptChar (c : Char) : Bool :=
  (97 ≤ c.toNat && c.toNat ≤ 122) || (48 ≤ c.toNat && c.toNat ≤ 57) ||
  isSpaceJS c || c.toNat == 43 || c.toNat == 35 || c.toNat == 46

/-- `replace(/[^a-z0-9\s\+\#\.]/g, ' ')` on one character. -/
def replaceDisallowed (c : Char) : Char :=
  if isKeptChar c then c else ' '

/-- `replace(/\s+/g, ' ')`: each maximal run of whitespace becomes one
space.  The boolean flag records whether the previous character was part
of a whitespace run. -/
def collapseWS : Bool → List Char → List Char
  | _, [] => []
  | prevSp, c :: rest =>
    if isSpaceJS c then
      if prevSp then collapseWS true rest else ' ' :: collapseWS true rest
    else c :: collapseWS false rest

/-- Removal of trailing whitespace (the right half of `trim()`). -/
def trimRight : List Char → List Char
  | [] => []
  | c :: rest =>
    match trimRight rest with
    | [] => if isSpaceJS c then [] else [c]
    | r => c :: r

/-- Model of `String.prototype.trim()`. -/
def jsTrim (l : List Char) : List Char :=
  trimRight (l.dropWhile isSpaceJS)

/-- The character pipeline of `normalizeText`: lowercase, replace
disallowed characters by spaces, collapse whitespace runs, trim. -/
def normalizeChars (l : List Char) : List Char :=
  jsTrim (collapseWS false ((l.map jsToLower).map replaceDisallowed))

/-- Whether a character list starts with JS whitespace. -/
def headIsSpace : List Char → Bool
  | [] => false
  | c :: _ => isSpaceJS c

/-- Whether a character list ends with JS whitespace. -/
def lastIsSpace : List Char → Bool
  | [] => false
  | [c] => isSpaceJS c
  | _ :: c :: rest => lastIsSpace (c :: rest)

/-- No two adjacent JS whitespace characters. -/
def noAdjSpace : List Char → Bool
  | [] => true
  | c :: l => !(isSpaceJS c && headIsSpace l) && noAdjSpace l

/-- A character that can occur in the output of `normalizeChars`:
a single space, or a kept non-whitespace character. -/
def normalChar (c : Char) : Bool :=
  c.toNat == 32 || (isKeptChar c && !(isSpaceJS c))

/-- `normalizeText` on an actual string argument
(`src/backend/server.js:115`), the branch below the type guard. -/
def normalizeText (s : String) : String :=
  ⟨normalizeChars s.data⟩

/-- A JavaScript value as seen by `normalizeText`: either a string or any
non-string value (`null`, `undefined`, numbers, objects, ...), which the
`typeof text !== 'string'` guard sends to the same early return. -/
inductive JSValue where
  | str (s : String)
  | nonStringVal
deriving DecidableEq

/-- Full `normalizeText` including the
`if (!text || typeof text !== 'string') return ''` guard. -/
def normalizeTextJS : JSValue → String
  | .nonStringVal => ""
  | .str s => if s == "" then "" else normalizeText s

/-- `x || ''` when a nullable string is passed where a string is expected. -/
def jsOrEmpty (o : Option String) : String :=
  match o with
  | some s => s
  | none => ""

/-- Truthiness of a nullable string column (`null` and `''` are falsy). -/
def jsTruthyOpt (o : Option String) : Bool :=
  match o with
  | some s => !(s == "")
  | none => false

/-- `x || null` applied to a nullable string: the empty string collapses
to `null`. -/
def jsOrNull (o : Option String) : Option String :=
  match o with
  | some s => if s == "" then none else some s
  | none => none

/-- `x || null` applied to a nullable number: `0` collapses to `null`. -/
def jsOrNullInt (o : Option Int) : Option Int :=
  match o with
  | some n => if n == 0 then none else some n
  | none => none

/-! ## Keyword taxonomy (`src/backend/server.js:54-108`) -/

def PROGRAMMING_LANGUAGES : List String :=
  ["javascript", "python", "java", "c++", "c#", "ruby", "php", "swift",
   "kotlin", "go", "rust", "typescript", "scala", "r", "matlab", "perl",
   "objective-c", "dart", "lua", "haskell", "sql", "html", "css", "bash",
   "powershell", "assembly", "vba", "groovy", "elixir", "clojure", "f#"]

def FRAMEWORKS_AND_LIBRARIES : List String :=
  ["react", "angular", "vue", "node", "express", "django", "flask", "spring",
   "rails", "laravel", "asp.net", ".net", "jquery", "bootstrap", "tailwind",
   "next.js", "nuxt", "gatsby", "svelte", "ember", "backbone", "redux",
   "graphql", "rest", "fastapi", "nestjs", "electron", "react native",
   "flutter", "xamarin", "unity", "unreal", "tensorflow", "pytorch", "keras",
   "scikit-learn", "pandas", "numpy", "matplotlib", "opencv", "spark"]

def TOOLS_AND_PLATFORMS : List String :=
  ["git", "github", "gitlab", "bitbucket", "docker", "kubernetes", "aws",
   "azure", "gcp", "firebase", "heroku", "vercel", "netlify", "jenkins",
   "travis", "circleci", "terraform", "ansible", "puppet", "chef", "nginx",
   "apache", "linux", "unix", "windows server", "macos", "mongodb", "mysql",
   "postgresql", "redis", "elasticsearch", "kafka", "rabbitmq", "dynamodb",
   "oracle", "sql server", "sqlite", "cassandra", "neo4j", "graphql",
   "postman", "swagger", "jira", "confluence", "slack", "figma", "sketch",
   "photoshop", "illustrator", "webpack", "vite", "babel", "eslint", "npm",
   "yarn", "pip", "maven", "gradle", "cmake", "make"]

def SOFT_SKILLS_AND_CONCEPTS : List String :=
  ["agile", "scrum", "kanban", "ci/cd", "devops", "microservices", "api",
   "rest api", "testing", "unit testing", "integration testing", "tdd",
   "bdd", "debugging", "problem solving", "communication", "teamwork",
   "leadership", "project management", "code review", "documentation",
   "mentoring", "collaboration", "time management", "critical thinking",
   "machine learning", "deep learning", "data analysis", "data science",
   "artificial intelligence", "nlp", "computer vision", "cloud computing",
   "cybersecurity", "networking", "database design", "system design",
   "algorithms", "data structures", "object oriented", "functional programming"]

def EDUCATION_KEYWORDS : List String :=
  ["bachelor", "master", "phd", "doctorate", "associate", "degree",
   "computer science", "software engineering", "information technology",
   "electrical engineering", "mathematics", "physics", "data science",
   "bootcamp", "certification", "certified", "university", "college"]

def EXPERIENCE_KEYWORDS : List String :=
  ["junior", "senior", "lead", "principal", "staff", "entry level",
   "mid level", "experienced", "manager", "director", "architect",
   "intern", "internship", "fresher", "graduate", "years experience",
   "1 year", "2 years", "3 years", "4 years", "5 years", "6 years",
   "7 years", "8 years", "9 years", "10 years", "1+ years", "2+ years",
   "3+ years", "4+ years", "5+ years", "6+ years", "7+ years", "8+ years"]

/-! ## Word-boundary keyword matching (`extractKeywords`)

The source escapes the keyword (`escapeRegex`) and tests the regex
`\bKEYWORD\b` with flag `i` against the normalized text, so the model is:
a literal occurrence of the lowercased keyword, flanked on both sides by
regex word boundaries.  A `\b` holds at a position iff exactly one of the
two surrounding characters is a word character `[A-Za-z0-9_]` (positions
outside the text count as non-word). -/

/-- Regex word character `\w` = `[A-Za-z0-9_]`. -/
def isWordCharJS (c : Char) : Bool :=
  c.toNat == 95 || (48 ≤ c.toNat && c.toNat ≤ 57) ||
  (65 ≤ c.toNat && c.toNat ≤ 90) || (97 ≤ c.toNat && c.toNat ≤ 122)

/-- Whether the character at index `i` of `l` exists and is a word
character. -/
def wordAt (l : List Char) (i : Nat) : Bool :=
  match l.drop i with
  | [] => false
  | c :: _ => isWordCharJS c

/-- Whether `\b` matches at position `i` of `l`. -/
def boundaryAt (l : List Char) (i : Nat) : Bool :=
  (if i == 0 then false else wordAt l (i - 1)) != wordAt l i

/-- Whether `\bKW\b` (with `KW` taken literally) matches at position `i`. -/
def wbMatchAt (kw text : List Char) (i : Nat) : Bool :=
  boundaryAt text i && kw.isPrefixOf (text.drop i) &&
  boundaryAt text (i + kw.length)

/-- `new RegExp('\\b' + escapeRegex(kw) + '\\b', 'i').test(text)` for an
already-lowercased keyword `kw` and lowercased `text`. -/
def wbTest (kw text : List Char) : Bool :=
  (List.range (text.length + 1)).any fun i => wbMatchAt kw text i

/-- `extractKeywords` (`src/backend/server.js:142`): keep, in taxonomy
order, every keyword whose word-bounded lowercase pattern matches the
normalized text. -/
def extractKeywords (text : String) (keywordList : List String) : List String :=
  let normalizedText := normalizeChars text.data
  keywordList.filter fun keyword => wbTest (keyword.data.map jsToLower) normalizedText

/-- The categorized skill sets produced by `extractAllSkills`. -/
structure Skills where
  technical : List String
  languages : List String
  frameworks : List String
  tools : List String
  softSkills : List String
  education : List String
  experience : List String
  all : List String
deriving DecidableEq, Repr

/-- `extractAllSkills` (`src/backend/server.js:155`).  `[...new Set(x)]`
keeps the first occurrence of each element, i.e. `List.eraseDups`. -/
def extractAllSkills (text : String) : Skills :=
  let languages := extractKeywords text PROGRAMMING_LANGUAGES
  let frameworks := extractKeywords text FRAMEWORKS_AND_LIBRARIES
  let tools := extractKeywords text TOOLS_AND_PLATFORMS
  let softSkills := extractKeywords text SOFT_SKILLS_AND_CONCEPTS
  let education := extractKeywords text EDUCATION_KEYWORDS
  let experience := extractKeywords text EXPERIENCE_KEYWORDS
  let technical := (languages ++ frameworks ++ tools).eraseDups
  { technical := technical
    languages := languages
    frameworks := frameworks
    tools := tools
    softSkills := softSkills
    education := education
    experience := experience
    all := (technical ++ softSkills ++ education ++ experience).eraseDups }

/-! ## Match scoring (`calculateMatchScore`, `src/backend/server.js:185`)

JS floating-point scores are modelled by exact rationals; the weights
`.1 .2 .4 .3` become `1/10` etc.  `Math.round` rounds half away from
zero toward positive infinity, i.e. `⌊x + 1/2⌋`. -/

/-- `Math.round` on a rational. -/
def jsRound (q : ℚ) : Int :=
  Int.floor (q + (1 : ℚ) / 2)

structure Breakdown where
  technical : Int
  softSkills : Int
  experience : Int
  education : Int
deriving DecidableEq, Repr

structure MatchedSkills where
  technical : List String
  softSkills : List String
  experience : List String
  education : List String
deriving DecidableEq, Repr

structure MissingSkills where
  technical : List String
  softSkills : List String
deriving DecidableEq, Repr

structure MatchSummary where
  totalJobRequirements : Nat
  totalMatched : Nat
  resumeSkillsCount : Nat
deriving DecidableEq, Repr

structure MatchResult where
  score : Int
  breakdown : Breakdown
  matchedSkills : MatchedSkills
  missingSkills : MissingSkills
  summary : MatchSummary
deriving DecidableEq, Repr

/-- `calculateMatchScore(resumeText, jobDesc, jobTitle)`.  Note that the
source computes `fullJobText` but never uses it: the job-side skills come
from `jobDesc` alone. -/
def calculateMatchScore (resumeText jobDesc : String) (jobTitle : String := "") :
    MatchResult :=
  let _fullJobText := jobTitle ++ " " ++ jobDesc
  let resumeSkills := extractAllSkills resumeText
  let jobSkills := extractAllSkills jobDesc
  let matchedTechnical := jobSkills.technical.filter fun skill =>
    resumeSkills.technical.contains skill
  let technicalScore : ℚ :=
    if jobSkills.technical.length > 0 then
      (matchedTechnical.length : ℚ) / (jobSkills.technical.length : ℚ) * 100
    else 100
  let matchedSoftSkills := jobSkills.softSkills.filter fun skill =>
    resumeSkills.softSkills.contains skill
  let softSkillsScore : ℚ :=
    if jobSkills.softSkills.length > 0 then
      (matchedSoftSkills.length : ℚ) / (jobSkills.softSkills.length : ℚ) * 100
    else 100
  let matchedExp := jobSkills.experience.filter fun skill =>
    resumeSkills.experience.contains skill
  let experienceScore : ℚ :=
    if jobSkills.experience.length > 0 then
      (matchedExp.length : ℚ) / (jobSkills.experience.length : ℚ) * 100
    else 100
  let matchedEducation := jobSkills.education.filter fun skill =>
    resumeSkills.education.contains skill
  let educationScore : ℚ :=
    if jobSkills.education.length > 0 then
      (matchedEducation.length : ℚ) / (jobSkills.education.length : ℚ) * 100
    else 100
  let finalScore := jsRound
    (technicalScore * (1 / 10) + softSkillsScore * (2 / 10) +
     experienceScore * (4 / 10) + educationScore * (3 / 10))
  { score := finalScore
    breakdown :=
      { technical := jsRound technicalScore
        softSkills := jsRound softSkillsScore
        experience := jsRound experienceScore
        education := jsRound educationScore }
    matchedSkills :=
      { technical := matchedTechnical
        softSkills := matchedSoftSkills
        experience := matchedExp
        education := matchedEducation }
    missingSkills :=
      { technical := jobSkills.technical.filter fun skill =>
          !(resumeSkills.technical.contains skill)
        softSkills := jobSkills.softSkills.filter fun skill =>
          !(resumeSkills.softSkills.contains skill) }
    summary :=
      { totalJobRequirements := jobSkills.all.length
        totalMatched := matchedTechnical.length + matchedEducation.length +
          matchedExp.length + matchedSoftSkills.length
        resumeSkillsCount := resumeSkills.all.length } }

/-- Follows the words of the specification for comparison with the source:
identical to `calculateMatchScore` except that the job-side skills are
extracted from `jobTitle + " " + jobDesc`, as step 1 of the spec's
MatchScorer algorithm prescribes. -/
def calculateMatchScoreSpecTitled (resumeText jobDesc : String)
    (jobTitle : String := "") : MatchResult :=
  let fullJobText := jobTitle ++ " " ++ jobDesc
  let resumeSkills := extractAllSkills resumeText
  let jobSkills := extractAllSkills fullJobText
  let matchedTechnical := jobSkills.technical.filter fun skill =>
    resumeSkills.technical.contains skill
  let technicalScore : ℚ :=
    if jobSkills.technical.length > 0 then
      (matchedTechnical.length : ℚ) / (jobSkills.technical.length : ℚ) * 100
    else 100
  let matchedSoftSkills := jobSkills.softSkills.filter fun skill =>
    resumeSkills.softSkills.contains skill
  let softSkillsScore : ℚ :=
    if jobSkills.softSkills.length > 0 then
      (matchedSoftSkills.length : ℚ) / (jobSkills.softSkills.length : ℚ) * 100
    else 100
  let matchedExp := jobSkills.experience.filter fun skill =>
    resumeSkills.experience.contains skill
  let experienceScore : ℚ :=
    if jobSkills.experience.length > 0 then
      (matchedExp.length : ℚ) / (jobSkills.experience.length : ℚ) * 100
    else 100
  let matchedEducation := jobSkills.education.filter fun skill =>
    resumeSkills.education.contains skill
  let educationScore : ℚ :=
    if jobSkills.education.length > 0 then
      (matchedEducation.length : ℚ) / (jobSkills.education.length : ℚ) * 100
    else 100
  let finalScore := jsRound
    (technicalScore * (1 / 10) + softSkillsScore * (2 / 10) +
     experienceScore * (4 / 10) + educationScore * (3 / 10))
  { score := finalScore
    breakdown :=
      { technical := jsRound technicalScore
        softSkills := jsRound softSkillsScore
        experience := jsRound experienceScore
        education := jsRound educationScore }
    matchedSkills :=
      { technical := matchedTechnical
        softSkills := matchedSoftSkills
        experience := matchedExp
        education := matchedEducation }
    missingSkills :=
      { technical := jobSkills.technical.filter fun skill =>
          !(resumeSkills.technical.contains skill)
        softSkills := jobSkills.softSkills.filter fun skill =>
          !(resumeSkills.softSkills.contains skill) }
    summary :=
      { totalJobRequirements := jobSkills.all.length
        totalMatched := matchedTechnical.length + matchedEducation.length +
          matchedExp.length + matchedSoftSkills.length
        resumeSkillsCount := resumeSkills.all.length } }

/-! ## Dates (`new Date(...)` / `toISOString`)

JS `Date` values are modelled as milliseconds since the Unix epoch
(`Int`).  `jsParseDate` models `new Date(string)` on the ISO-8601 UTC
shapes the provider and the database produce (`YYYY-MM-DD`,
`YYYY-MM-DDTHH:MM:SSZ`, `YYYY-MM-DDTHH:MM:SS.mmmZ`); every other string
is treated as an invalid date.  Calendar conversion uses the standard
era-based civil-date algorithms. -/

/-- Days since 1970-01-01 of the civil date `(y, m, d)` (with `1 ≤ m ≤ 12`). -/
def civilToDays (y : Nat) (m d : Nat) : Int :=
  let yAdj : Nat := if m ≤ 2 then y - 1 else y
  let era : Nat := yAdj / 400
  let yoe : Nat := yAdj % 400
  let mp : Nat := if 2 < m then m - 3 else m + 9
  let doy : Nat := (153 * mp + 2) / 5 + d - 1
  let doe : Nat := yoe * 365 + yoe / 4 - yoe / 100 + doy
  (era * 146097 + doe : Int) - 719468

/-- Civil date `(y, m, d)` of a day count relative to 1970-01-01. -/
def daysToCivil (z : Int) : Nat × Nat × Nat :=
  let zShift : Int := z + 719468
  let era : Int := zShift.ediv 146097
  let doe : Nat := (zShift.emod 146097).toNat
  let yoe : Nat := (doe - doe / 1460 + doe / 36524 - doe / 146096) / 365
  let doy : Nat := doe - (365 * yoe + yoe / 4 - yoe / 100)
  let mp : Nat := (5 * doy + 2) / 153
  let d : Nat := doy - (153 * mp + 2) / 5 + 1
  let m : Nat := if mp < 10 then mp + 3 else mp - 9
  let y : Int := (yoe : Int) + era * 400 + (if m ≤ 2 then 1 else 0)
  (y.toNat, m, d)

/-- Value of a decimal digit character, if it is one. -/
def digitVal (c : Char) : Option Nat :=
  if 48 ≤ c.toNat && c.toNat ≤ 57 then some (c.toNat - 48) else none

/-- Two-digit decimal field. -/
def twoDigits (a b : Char) : Option Nat :=
  match digitVal a, digitVal b with
  | some x, some y => some (x * 10 + y)
  | _, _ => none

/-- Four-digit decimal field. -/
def fourDigits (a b c d : Char) : Option Nat :=
  match twoDigits a b, twoDigits c d with
  | some x, some y => some (x * 100 + y)
  | _, _ => none

/-- Number of days in a month of the proleptic Gregorian calendar. -/
def daysInMonth (y m : Nat) : Nat :=
  if m == 2 then
    if y % 4 == 0 && (y % 100 != 0 || y % 400 == 0) then 29 else 28
  else if m == 4 || m == 6 || m == 9 || m == 11 then 30
  else 31

/-- Epoch milliseconds of a validated civil date-time. -/
def buildDateMs (y mo d h mi s ms : Nat) : Option Int :=
  if 1 ≤ mo && mo ≤ 12 && 1 ≤ d && d ≤ daysInMonth y mo &&
      h ≤ 23 && mi ≤ 59 && s ≤ 59 then
    some (civilToDays y mo d * 86400000 +
      ((h * 3600 + mi * 60 + s) * 1000 + ms : Nat))
  else none

/-- `new Date(string)` on the ISO-8601 UTC subset. -/
def jsParseDate (str : String) : Option Int :=
  match str.data with
  | [y1, y2, y3, y4, '-', m1, m2, '-', d1, d2] =>
    match fourDigits y1 y2 y3 y4, twoDigits m1 m2, twoDigits d1 d2 with
    | some y, some mo, some d => buildDateMs y mo d 0 0 0 0
    | _, _, _ => none
  | [y1, y2, y3, y4, '-', m1, m2, '-', d1, d2, 'T',
     h1, h2, ':', n1, n2, ':', s1, s2, 'Z'] =>
    match fourDigits y1 y2 y3 y4, twoDigits m1 m2, twoDigits d1 d2,
        twoDigits h1 h2, twoDigits n1 n2, twoDigits s1 s2 with
    | some y, some mo, some d, some h, some mi, some s =>
      buildDateMs y mo d h mi s 0
    | _, _, _, _, _, _ => none
  | [y1, y2, y3, y4, '-', m1, m2, '-', d1, d2, 'T',
     h1, h2, ':', n1, n2, ':', s1, s2, '.', f1, f2, f3, 'Z'] =>
    match fourDigits y1 y2 y3 y4, twoDigits m1 m2, twoDigits d1 d2,
        twoDigits h1 h2, twoDigits n1 n2, twoDigits s1 s2,
        digitVal f1, digitVal f2, digitVal f3 with
    | some y, some mo, some d, some h, some mi, some s,
        some a, some b, some c =>
      buildDateMs y mo d h mi s (a * 100 + b * 10 + c)
    | _, _, _, _, _, _, _, _, _ => none
  | _ => none

/-- Decimal digits of `n`, left-padded with zeros to width `w`. -/
def padNat (w n : Nat) : String :=
  let s := toString n
  let pad := w - s.length
  String.mk (List.replicate pad '0') ++ s

/-- `Date.prototype.toISOString`: always the 24-character form
`YYYY-MM-DDTHH:mm:ss.sssZ` (years 0..9999). -/
def toISOString (msSinceEpoch : Int) : String :=
  let days : Int := msSinceEpoch.ediv 86400000
  let rem : Nat := (msSinceEpoch.emod 86400000).toNat
  let c := daysToCivil days
  let h := rem / 3600000
  let mi := rem / 60000 % 60
  let s := rem / 1000 % 60
  let ms := rem % 1000
  padNat 4 c.1 ++ "-" ++ padNat 2 c.2.1 ++ "-" ++ padNat 2 c.2.2 ++ "T" ++
  padNat 2 h ++ ":" ++ padNat 2 mi ++ ":" ++ padNat 2 s ++ "." ++
  padNat 3 ms ++ "Z"

/-- Fourteen days in milliseconds (`14 * 24 * 60 * 60 * 1000`). -/
def twoWeeksInMs : Int := 14 * 24 * 60 * 60 * 1000

/-- The parse gate of `calculateJobExpiration` applied to one nullable
date source: the truthiness test followed by `new Date(...)` validity. -/
def parseDateSource (o : Option String) : Option Int :=
  if jsTruthyOpt o then jsParseDate (jsOrEmpty o) else none

/-- `calculateJobExpiration(postedDate, createdAt)`
(`src/backend/server.js:313`): posted date plus 14 days if it parses,
else creation time plus 14 days if that parses, else never expires.
Returns `(expiresAt, expirationMethod)`. -/
def calculateJobExpiration (postedDate createdAt : Option String) :
    Option String × String :=
  match parseDateSource postedDate with
  | some t => (some (toISOString (t + twoWeeksInMs)), "posted_date")
  | none =>
    match parseDateSource createdAt with
    | some t => (some (toISOString (t + twoWeeksInMs)), "created_at")
    | none => (none, "never")

/-! ## Database rows

Tables are modelled as lists of row structures.  `TEXT` columns that may
be `NULL` are `Option String`; `created_at` is the stored ISO timestamp
string. -/

/-- One row of `job_listings` (`src/backend/server.js:872`). -/
structure JobRow where
  job_id : String
  title : Option String
  company : Option String
  location : Option String
  employment_type : Option String
  description : Option String
  description_summary : Option String
  apply_link : Option String
  is_remote : Nat
  posted_date : Option String
  salary_min : Option Int
  salary_max : Option Int
  created_at : String
  status : String
  expiration_method : String
  expires_at : Option String
deriving DecidableEq, Repr

/-- The incoming listing handed to `upsertJobListing`: the mapped job
fields (no status and no creation timestamp, which the database owns). -/
structure InRow where
  job_id : String
  title : Option String
  company : Option String
  location : Option String
  employment_type : Option String
  description : Option String
  apply_link : Option String
  is_remote : Nat
  posted_date : Option String
  salary_min : Option Int
  salary_max : Option Int
deriving DecidableEq, Repr

/-- One row of `saved_jobs` (`src/backend/server.js:296`). -/
structure SavedRow where
  title : Option String
  company : Option String
  date : Option String
  link : Option String
  notes : Option String
  status : String
deriving DecidableEq, Repr

/-- SQL `=` between two nullable TEXT values: `NULL` compares equal to
nothing (the comparison yields `NULL`, which is not true). -/
def sqlEq (a b : Option String) : Bool :=
  match a, b with
  | some x, some y => x == y
  | _, _ => false

/-- SQLite's binary TEXT collation: lexicographic comparison of the
code sequences (`memcmp`). -/
def charListLe : List Char → List Char → Bool
  | [], _ => true
  | _ :: _, [] => false
  | x :: xs, y :: ys =>
    if x.toNat < y.toNat then true
    else if y.toNat < x.toNat then false
    else charListLe xs ys

/-- SQL `<=` between a nullable TEXT column and a TEXT parameter
(binary collation); `NULL <= x` is not true. -/
def sqlLeStr (a : Option String) (b : String) : Bool :=
  match a with
  | some x => charListLe x.data b.data
  | none => false

/-- SQL `>=` between a nullable TEXT column and a TEXT parameter. -/
def sqlGeStr (a : Option String) (b : String) : Bool :=
  match a with
  | some x => charListLe b.data x.data
  | none => false

/-- SQL `>=` between a nullable INTEGER column and an integer parameter. -/
def sqlGeInt (a : Option Int) (b : Int) : Bool :=
  match a with
  | some x => decide (b ≤ x)
  | none => false

/-! ## `upsertJobListing` (`src/backend/server.js:452`)

The summarization collaborator is a parameter `summarize`; the returned
flag records whether it was invoked, so "the summarizer is not invoked a
second time" is a provable statement.  `now` stands for the ingestion
instant `new Date().toISOString()`, which is also what the
`DEFAULT CURRENT_TIMESTAMP` of `created_at` resolves to for a fresh row.
After the write the source triggers `recalculateMatches` for this
listing; that call never modifies any table (see
`recalculateMatches_noop` below), so it does not appear in the returned
state. -/

/-- The `ON CONFLICT(job_id) DO UPDATE SET` assignment list: every
incoming field is overwritten, `description_summary` is
`COALESCE(excluded, old)`, and `created_at` and `status` are absent from
the list, hence preserved. -/
def applyConflictUpdate (row : InRow) (newSummary : Option String)
    (expiration : Option String × String) (old : JobRow) : JobRow :=
  { job_id := old.job_id
    title := row.title
    company := row.company
    location := row.location
    employment_type := row.employment_type
    description := row.description
    description_summary :=
      match newSummary with
      | some s => some s
      | none => old.description_summary
    apply_link := row.apply_link
    is_remote := row.is_remote
    posted_date := row.posted_date
    salary_min := row.salary_min
    salary_max := row.salary_max
    created_at := old.created_at
    status := old.status
    expiration_method := expiration.2
    expires_at := expiration.1 }

/-- The freshly inserted row of the no-conflict branch: all incoming
fields, the computed summary and expiration, `created_at` from the
database clock, and the default status `active`. -/
def mkInsertRow (row : InRow) (summary : Option String)
    (expiration : Option String × String) (now : String) : JobRow :=
  { job_id := row.job_id
    title := row.title
    company := row.company
    location := row.location
    employment_type := row.employment_type
    description := row.description
    description_summary := summary
    apply_link := row.apply_link
    is_remote := row.is_remote
    posted_date := row.posted_date
    salary_min := row.salary_min
    salary_max := row.salary_max
    created_at := now
    status := "active"
    expiration_method := expiration.2
    expires_at := expiration.1 }

/-- The summary phase of `upsertJobListing`: with a truthy incoming
description, look up the existing row and reuse its non-null cached
summary; otherwise ask the summarizer.  The boolean records whether the
summarizer was invoked. -/
def summaryStepOf (summarize : String → Option String)
    (db : List JobRow) (row : InRow) : Option String × Bool :=
  if jsTruthyOpt row.description then
    match db.find? fun r => r.job_id == row.job_id with
    | none => (summarize (jsOrEmpty row.description), true)
    | some ex =>
      match ex.description_summary with
      | none => (summarize (jsOrEmpty row.description), true)
      | some s => (some s, false)
  else (none, false)

/-- `upsertJobListing(db, row)`.  Returns the new `job_listings` table
and whether `generateJobDescriptionSummary` was invoked. -/
def upsertJobListing (summarize : String → Option String) (now : String)
    (db : List JobRow) (row : InRow) : List JobRow × Bool :=
  let expiration := calculateJobExpiration row.posted_date (some now)
  let summaryStep := summaryStepOf summarize db row
  let table :=
    if db.any fun r => r.job_id == row.job_id then
      db.map fun r =>
        if r.job_id == row.job_id then
          applyConflictUpdate row summaryStep.1 expiration r
        else r
    else
      db ++ [mkInsertRow row summaryStep.1 expiration now]
  (table, summaryStep.2)

/-! ## `POST /api/jobs/mark-expired` (`src/backend/server.js:1145`) -/

/-- Whether the bulk update touches a row:
`status = 'active' AND expires_at IS NOT NULL AND expires_at <= now`. -/
def expiresBy (now : String) (r : JobRow) : Bool :=
  r.status == "active" && sqlLeStr r.expires_at now

/-- `markExpired(now)`: flip every matching row to `expired` and report
`this.changes`. -/
def markExpired (now : String) (db : List JobRow) : List JobRow × Nat :=
  (db.map fun r => if expiresBy now r then { r with status := "expired" } else r,
   db.countP fun r => expiresBy now r)

/-! ## `GET /api/jobs/count` (`src/backend/server.js:1048`) -/

/-- The query parameters of the count endpoint after the source's
extraction step (strings already trimmed, `minSalary` already through
`parseInt(...) || null`).  `nowMs` is the clock reading used for the
posted-date buckets. -/
structure CountQuery where
  q : String
  employmentType : String
  isRemote : Bool
  location : String
  minSalary : Option Int
  datePosted : String
  nowMs : Int
deriving Repr

/-- Case-insensitive (ASCII, as in SQLite) substring test: SQL
`x LIKE '%needle%'` for a needle with no wildcard metacharacters. -/
def likeContains (hay : Option String) (needle : String) : Bool :=
  match hay with
  | none => false
  | some h =>
    let hl := h.data.map jsToLower
    let nl := needle.data.map jsToLower
    (List.range (hl.length + 1)).any fun i => nl.isPrefixOf (hl.drop i)

/-- The employment-type search pattern table of the endpoint (the text
between the `%` wildcards). -/
def empPattern (e : String) : String :=
  if e == "full_time" then "Full-time"
  else if e == "part_time" then "Part-time"
  else if e == "contract" then "Contractor"
  else if e == "internship" then "Intern"
  else e

/-- The posted-date cutoff: `now` minus 1, 7 or 30 days for the three
recognized buckets, nothing otherwise. -/
def dateCutOff (nowMs : Int) (datePosted : String) : Option String :=
  if datePosted == "24H" then some (toISOString (nowMs - 1 * 24 * 60 * 60 * 1000))
  else if datePosted == "7D" then some (toISOString (nowMs - 7 * 24 * 60 * 60 * 1000))
  else if datePosted == "30D" then some (toISOString (nowMs - 30 * 24 * 60 * 60 * 1000))
  else none

/-- The dynamically built `WHERE` clause of the count endpoint (shared
shape with `GET /api/jobs`): active status plus one conjunct per supplied
filter. -/
def passesCountWhere (cq : CountQuery) (jl : JobRow) : Bool :=
  (jl.status == "active") &&
  (cq.q == "" ||
    (likeContains jl.title cq.q || likeContains jl.company cq.q ||
     likeContains jl.location cq.q)) &&
  (cq.employmentType == "" ||
    (!(jl.employment_type == none) &&
     likeContains jl.employment_type (empPattern cq.employmentType))) &&
  (!cq.isRemote || jl.is_remote == 1) &&
  (cq.location == "" || likeContains jl.location cq.location) &&
  (match cq.minSalary with
   | some m =>
     if 0 < m then sqlGeInt jl.salary_min m || sqlGeInt jl.salary_max m
     else true
   | none => true) &&
  (match dateCutOff cq.nowMs cq.datePosted with
   | some cd => sqlGeStr jl.posted_date cd
   | none => true)

/-- The `NOT EXISTS` anti-join of the count endpoint: a saved job with
status `saved` whose title and company are SQL-equal (exact, binary
collation) to the listing's. -/
def savedMatchExact (saved : List SavedRow) (jl : JobRow) : Bool :=
  saved.any fun sj =>
    sqlEq sj.title jl.title && sqlEq sj.company jl.company &&
    sj.status == "saved"

/-- The total the count endpoint returns. -/
def countJobsEndpoint (cq : CountQuery) (listings : List JobRow)
    (saved : List SavedRow) : Nat :=
  (listings.filter fun jl =>
    passesCountWhere cq jl && !(savedMatchExact saved jl)).length

/-- Follows the claim's words, for comparison with the source: the saved
job and the listing match when titles and companies are equal after
trimming surrounding whitespace and lowercasing. -/
def savedMatchInsensitive (saved : List SavedRow) (jl : JobRow) : Bool :=
  saved.any fun sj =>
    sj.status == "saved" &&
    (jsTrim (jsOrEmpty sj.title).data).map jsToLower ==
      (jsTrim (jsOrEmpty jl.title).data).map jsToLower &&
    (jsTrim (jsOrEmpty sj.company).data).map jsToLower ==
      (jsTrim (jsOrEmpty jl.company).data).map jsToLower

/-! ## `recalculateMatches` (`src/backend/server.js:1443`) -/

/-- One row of `resumes` as selected by the recalculation query
(`SELECT id, raw_text FROM resumes ORDER BY updated_at DESC LIMIT 1`). -/
structure ResumeRow where
  id : Nat
  raw_text : Option String
  updated_at : String
deriving DecidableEq, Repr

/-- One row of `job_matches`, slimmed to the fields the claims mention. -/
structure MatchRow where
  resume_id : Nat
  job_id : Nat
  match_score : Int
deriving DecidableEq, Repr

/-- `ORDER BY updated_at DESC LIMIT 1`: a most-recently-updated resume. -/
def latestResume : List ResumeRow → Option ResumeRow
  | [] => none
  | r :: rest =>
    match latestResume rest with
    | none => some r
    | some m => if r.updated_at < m.updated_at then some m else some r

/-- Property access on the JS row object produced by the resume query:
the object has exactly the keys `id` and `raw_text`; any other key reads
as `undefined` (modelled as `none`). -/
def resumeField (r : ResumeRow) (key : String) : Option String :=
  if key == "id" then some (toString r.id)
  else if key == "raw_text" then r.raw_text
  else none

/-- `INSERT OR REPLACE` on the `UNIQUE(resume_id, job_id)` key. -/
def insertOrReplaceMatch (ms : List MatchRow) (rid jid : Nat) (score : Int) :
    List MatchRow :=
  (ms.filter fun m => !(m.resume_id == rid && m.job_id == jid)) ++
    [{ resume_id := rid, job_id := jid, match_score := score }]

/-- `recalculateMatches(jobID, jobTitle, jobDesc)`: no-op without a
description; otherwise look up the latest resume and guard on
`!resume || !resume.rawText` before writing.  The source reads the
property `rawText`, while the selected column is named `raw_text`, and
the guarded write names the column `match_score`, which the
`job_matches` schema spells `matched_score`. -/
def recalculateMatches (resumes : List ResumeRow) (matchTable : List MatchRow)
    (jobID : Nat) (jobTitle jobDesc : Option String) : List MatchRow :=
  if !(jsTruthyOpt jobDesc) then matchTable
  else
    match latestResume resumes with
    | none => matchTable
    | some resume =>
      if !(jsTruthyOpt (resumeField resume "rawText")) then matchTable
      else
        insertOrReplaceMatch matchTable resume.id jobID
          (calculateMatchScore (jsOrEmpty (resumeField resume "raw_text"))
            (jsOrEmpty jobDesc) (jsOrEmpty jobTitle)).score

/-! ## `GET /api/jobs/search` (`src/backend/server.js:704`) and
`mapJSearchJobToDB` (`src/backend/server.js:430`) -/

/-- A raw posting from the search provider, with the fields the mapper
reads.  Absent properties are `none`. -/
structure JSearchJob where
  job_id : Option String
  job_title : Option String
  employer_name : Option String
  job_city : Option String
  job_state : Option String
  job_country : Option String
  job_employment_type : Option String
  job_description : Option String
  job_apply_link : Option String
  job_apply_links : Option (List String)
  job_is_remote : Option Bool
  job_posted_at_datetime_utc : Option String
  job_posted_at_timestamp : Option Int
  job_min_salary : Option Int
  job_max_salary : Option Int
deriving DecidableEq, Repr

/-- The row shape `mapJSearchJobToDB` produces.  `posted_date` keeps the
JS union of an ISO string or a numeric timestamp. -/
structure MappedJob where
  job_id : Option String
  title : Option String
  company : Option String
  location : String
  employment_type : Option String
  description : Option String
  apply_link : Option String
  is_remote : Nat
  posted_date : Option (String ⊕ Int)
  salary_min : Option Int
  salary_max : Option Int
deriving DecidableEq, Repr

/-- `[city, state, country].filter(Boolean).join(', ')`. -/
def joinLocation (city state country : Option String) : String :=
  String.intercalate ", "
    (([city, state, country].filterMap jsOrNull))

/-- `job_posted_at_datetime_utc || job_posted_at_timestamp || null`
(an empty string and the number `0` are both falsy). -/
def postedDateOf (j : JSearchJob) : Option (String ⊕ Int) :=
  match jsOrNull j.job_posted_at_datetime_utc with
  | some s => some (Sum.inl s)
  | none =>
    match jsOrNullInt j.job_posted_at_timestamp with
    | some n => some (Sum.inr n)
    | none => none

/-- `mapJSearchJobToDB(job)`. -/
def mapJSearchJobToDB (j : JSearchJob) : MappedJob :=
  { job_id := j.job_id
    title := jsOrNull j.job_title
    company := jsOrNull j.employer_name
    location := joinLocation j.job_city j.job_state j.job_country
    employment_type := jsOrNull j.job_employment_type
    description := jsOrNull j.job_description
    apply_link :=
      match jsOrNull j.job_apply_link with
      | some s => some s
      | none => jsOrNull (j.job_apply_links.bind List.head?)
    is_remote := if j.job_is_remote == some true then 1 else 0
    posted_date := postedDateOf j
    salary_min := jsOrNullInt j.job_min_salary
    salary_max := jsOrNullInt j.job_max_salary }

/-- The JSON body returned by the search endpoint. -/
structure SearchResponse where
  count : Nat
  jobs : List MappedJob
deriving DecidableEq, Repr

/-- The storage phase and response assembly of `GET /api/jobs/search`,
after a successful provider fetch of `fetched`.  `storeOk` abstracts the
per-posting success of `upsertJobListing`; a failed upsert is swallowed
by the empty `catch`.  Returns the response and the list of rows whose
storage succeeded. -/
def searchStoreAndRespond (fetched : List JSearchJob)
    (storeOk : MappedJob → Bool) : SearchResponse × List MappedJob :=
  if fetched.length == 0 then ({ count := 0, jobs := [] }, [])
  else
    let mapped := fetched.map mapJSearchJobToDB
    let attempted := mapped.filter fun r => jsTruthyOpt r.job_id
    let stored := attempted.filter storeOk
    ({ count := mapped.length, jobs := mapped }, stored)

/-! ## Page assembly (`fetchJobs`, `src/finder/finder.js:61`)

`db` is the sequence `GET /api/jobs` serves for the active query and
filters: the matching `active` listings ordered by `created_at`
descending (ingestion time, newest first); a batch at `offset` is
`(db.drop offset).take REQUEST_SIZE`.  `PAGE_SIZE = 8`,
`REQUEST_SIZE = 40`, `maxFetchAttempts = 20`. -/

/-- The saved-job filter of the finder: trim, lowercase and compare both
title and company against every saved job (`src/finder/finder.js:126`). -/
def isSavedListing (saved : List SavedRow) (job : JobRow) : Bool :=
  saved.any fun savedJob =>
    (jsTrim (jsOrEmpty savedJob.title).data).map jsToLower ==
      (jsTrim (jsOrEmpty job.title).data).map jsToLower &&
    (jsTrim (jsOrEmpty savedJob.company).data).map jsToLower ==
      (jsTrim (jsOrEmpty job.company).data).map jsToLower

/-- The batch loop of `fetchJobs`: `fuel` is the remaining fetch
attempts, `offset` the database offset, `collected` the unsaved listings
gathered so far; `target` is `(page - 1) * PAGE_SIZE`. -/
def fetchLoop (db : List JobRow) (saved : List SavedRow) (target : Nat) :
    Nat → Nat → List JobRow → List JobRow
  | 0, _, collected => collected
  | fuel + 1, offset, collected =>
    if collected.length < target + 8 then
      let batch := (db.drop offset).take 40
      if batch.isEmpty then collected
      else
        let collected2 := collected ++ batch.filter fun j => !(isSavedListing saved j)
        if batch.length < 40 then collected2
        else fetchLoop db saved target fuel (offset + 40) collected2
    else collected

/-- `fetchJobs` for page `page`: run the loop (20 attempts, offset 0,
nothing collected), against the saved jobs with status `saved`
(`getSavedJobs`, `src/finder/finder.js:465`), then slice
`[(page-1)*8, page*8)`. -/
def fetchJobsPage (db : List JobRow) (savedAll : List SavedRow) (page : Nat) :
    List JobRow :=
  let saved := savedAll.filter fun j => j.status == "saved"
  let target := (page - 1) * 8
  let collected := fetchLoop db saved target 20 0 []
  (collected.drop target).take 8

/-- The unsaved active listings in database order: what the spec calls
the `collected` sequence at exhaustion. -/
def unsavedListings (db : List JobRow) (savedAll : List SavedRow) : List JobRow :=
  let saved := savedAll.filter fun j => j.status == "saved"
  db.filter fun j => !(isSavedListing saved j)

/-! ## General list helpers -/

/-- Filtering after a map that preserves the filter predicate commutes. -/
theorem filter_map_pred_comm {α : Type} (f : α → α) (p : α → Bool)
    (hf : ∀ a, p (f a) = p a) (l : List α) :
    (l.map f).filter p = (l.filter p).map f := by
  induction l with
  | nil => rfl
  | cons a t ih =>
    by_cases h : p a = true
    · simp [List.filter_cons, hf, h, ih]
    · simp only [Bool.not_eq_true] at h
      simp [List.filter_cons, hf, h, ih]

/-- A filter with a unique survivor determines `find?`. -/
theorem find?_of_filter_singleton {α : Type} (p : α → Bool) (l : List α)
    (a : α) (h : l.filter p = [a]) : l.find? p = some a := by
  induction l with
  | nil => simp at h
  | cons x t ih =>
    by_cases hx : p x = true
    · rw [List.filter_cons_of_pos hx] at h
      injection h with h1 h2
      rw [h1] at hx
      simp [List.find?_cons, hx, h1]
    · simp only [Bool.not_eq_true] at hx
      rw [List.filter_cons_of_neg (by simp [hx])] at h
      simp [List.find?_cons, hx, ih h]

/-- Counting survivors of `p ∧ q` never exceeds counting survivors of `p`. -/
theorem length_filter_and_le {α : Type} (p q : α → Bool) (l : List α) :
    (l.filter fun a => p a && q a).length ≤ (l.filter p).length := by
  induction l with
  | nil => simp
  | cons a t ih =>
    by_cases hp : p a = true
    · by_cases hq : q a = true
      · simp [List.filter_cons, hp, hq]; omega
      · simp only [Bool.not_eq_true] at hq
        simp [List.filter_cons, hp, hq]; omega
    · simp only [Bool.not_eq_true] at hp
      simp [List.filter_cons, hp]; omega

/-- Anti-join cardinality: the survivors of `p ∧ ¬q` are the survivors of
`p` minus the survivors of `p ∧ q`. -/
theorem length_filter_and_not {α : Type} (p q : α → Bool) (l : List α) :
    (l.filter fun a => p a && !(q a)).length =
      (l.filter p).length - (l.filter fun a => p a && q a).length := by
  induction l with
  | nil => rfl
  | cons a t ih =>
    have hle := length_filter_and_le p q t
    by_cases hp : p a = true
    · by_cases hq : q a = true
      · simp [List.filter_cons, hp, hq, ih]
      · simp only [Bool.not_eq_true] at hq
        simp [List.filter_cons, hp, hq, ih]
        omega
    · simp only [Bool.not_eq_true] at hp
      simp [List.filter_cons, hp, ih]

/-! ## Claim C1 -/

/-- C1: the claim says `calculateMatchScore` extracts the job-side skills
from `jobTitle + " " + jobDesc`, but the source computes that
concatenation into the unused `fullJobText` and extracts the job-side
skills from `jobDesc` alone.  At resume `"python"`, description `"java"`,
title `"python"`, the code scores the technical axis 0 (final score 90),
while extraction from title-plus-description – the behaviour stated by
the claim and by the function's own doc comment – would score it 50
(final score 95), counting the title keyword `python` as a job-side
requirement. -/
theorem C1_jobTitle_ignored :
    (calculateMatchScore "python" "java" "python").breakdown.technical = 0 ∧
    (calculateMatchScore "python" "java" "python").score = 90 ∧
    (calculateMatchScoreSpecTitled "python" "java" "python").breakdown.technical = 50 ∧
    (calculateMatchScoreSpecTitled "python" "java" "python").score = 95 ∧
    (extractAllSkills "java").technical = ["java"] ∧
    (extractAllSkills ("python" ++ " " ++ "java")).technical = ["python", "java"] := by
  have hJ : extractAllSkills "java" =
      { technical := ["java"], languages := ["java"], frameworks := [], tools := [],
        softSkills := [], education := [], experience := [], all := ["java"] } := by decide
  have hP : extractAllSkills "python" =
      { technical := ["python"], languages := ["python"], frameworks := [], tools := [],
        softSkills := [], education := [], experience := [], all := ["python"] } := by decide
  have hPJ : extractAllSkills ("python" ++ " " ++ "java") =
      { technical := ["python", "java"], languages := ["python", "java"], frameworks := [],
        tools := [], softSkills := [], education := [], experience := [],
        all := ["python", "java"] } := by decide
  have hf1 : (["java"] : List String).filter
      (fun skill => (["python"] : List String).contains skill) = [] := by decide
  have hf2 : (["python", "java"] : List String).filter
      (fun skill => (["python"] : List String).contains skill) = ["python"] := by decide
  refine ⟨?_, ?_, ?_, ?_, by rw [hJ], by rw [hPJ]⟩ <;>
    simp only [calculateMatchScore, calculateMatchScoreSpecTitled, hJ, hP, hPJ, hf1, hf2] <;>
    norm_num [jsRound]

/-! ## Claim C2 -/

/-- C2: the claim says that after an upsert commits, the targeted
recalculation inserts or replaces the JobMatch row for the latest resume
whenever such a resume exists and the description is non-empty.  In the
source the guard reads `resume.rawText`, but the selected column is named
`raw_text`, so the property access yields `undefined`, the guard always
fires, and `recalculateMatches` never writes anything — it is the
identity on the match table for every input, including the concrete one
below where a resume with non-empty text exists and the description is
non-empty.  (The unreachable write would additionally fail: it names the
column `match_score`, which the `job_matches` schema spells
`matched_score`.) -/
theorem C2_recalculateMatches_never_writes :
    (∀ (resumes : List ResumeRow) (matchTable : List MatchRow)
        (jobID : Nat) (jobTitle jobDesc : Option String),
      recalculateMatches resumes matchTable jobID jobTitle jobDesc = matchTable) ∧
    recalculateMatches
      [{ id := 1, raw_text := some "python developer", updated_at := "2024-01-01" }]
      [] 7 (some "Engineer") (some "python and java") = [] := by
  constructor
  · intro resumes matchTable jobID jobTitle jobDesc
    unfold recalculateMatches
    by_cases hd : jsTruthyOpt jobDesc = true
    · simp only [hd, Bool.not_true, Bool.false_eq_true, if_false]
      cases hr : latestResume resumes with
      | none => rfl
      | some resume => simp [resumeField, jsTruthyOpt]
    · simp only [Bool.not_eq_true] at hd
      simp [hd]
  · simp [recalculateMatches, latestResume, resumeField, jsTruthyOpt]

/-! ## Claim C7 -/

/-- C7 (counterexample): the scenario in the claim asserts that a posted
date of `"2024-01-01T00:00:00Z"` yields `expires_at =
"2024-01-15T00:00:00Z"`, but `toISOString` always emits milliseconds, so
the stored text is `"2024-01-15T00:00:00.000Z"`, a different string. -/
theorem C7_scenario_millis_cex :
    calculateJobExpiration (some "2024-01-01T00:00:00Z") none ≠
      (some "2024-01-15T00:00:00Z", "posted_date") ∧
    calculateJobExpiration (some "2024-01-01T00:00:00Z") none =
      (some "2024-01-15T00:00:00.000Z", "posted_date") := by
  decide

/-- C7 (amended): the three-way expiration rule holds as claimed —
posted date plus 14 days with method `posted_date` when the posted date
parses, else creation time plus 14 days with method `created_at` when
that parses, else no expiry with method `never` — and the scenario date
`2024-01-01T00:00:00Z` expires at the instant 2024-01-15T00:00:00Z,
stored in `toISOString` form as `"2024-01-15T00:00:00.000Z"`. -/
theorem C7_expiration_rule (postedDate createdAt : Option String) :
    (∀ t, parseDateSource postedDate = some t →
      calculateJobExpiration postedDate createdAt =
        (some (toISOString (t + twoWeeksInMs)), "posted_date")) ∧
    (parseDateSource postedDate = none → ∀ t, parseDateSource createdAt = some t →
      calculateJobExpiration postedDate createdAt =
        (some (toISOString (t + twoWeeksInMs)), "created_at")) ∧
    (parseDateSource postedDate = none → parseDateSource createdAt = none →
      calculateJobExpiration postedDate createdAt = (none, "never")) ∧
    calculateJobExpiration (some "2024-01-01T00:00:00Z") none =
      (some "2024-01-15T00:00:00.000Z", "posted_date") := by
  refine ⟨?_, ?_, ?_, by decide⟩
  · intro t ht
    simp [calculateJobExpiration, ht]
  · intro hp t ht
    simp [calculateJobExpiration, hp, ht]
  · intro hp hc
    simp [calculateJobExpiration, hp, hc]

/-- Closed instance of `C7_expiration_rule`: all three branches of the
rule evaluated at concrete date strings. -/
theorem C7_expiration_rule_witness :
    calculateJobExpiration (some "2024-03-01") (some "junk") =
      (some (toISOString (1709251200000 + twoWeeksInMs)), "posted_date") ∧
    calculateJobExpiration (some "junk") (some "2024-03-01") =
      (some (toISOString (1709251200000 + twoWeeksInMs)), "created_at") ∧
    calculateJobExpiration (some "junk") none = (none, "never") :=
  ⟨(C7_expiration_rule (some "2024-03-01") (some "junk")).1 1709251200000 (by decide),
   (C7_expiration_rule (some "junk") (some "2024-03-01")).2.1 (by decide)
     1709251200000 (by decide),
   (C7_expiration_rule (some "junk") none).2.2.1 (by decide) (by decide)⟩

/-! ## Claim C10 -/

/-- C10: after a successful provider fetch, the search endpoint's
response is computed from all fetched postings, not from what was stored:
the `jobs` array is the mapped fetched list and `count` its length,
independent of the storage oracle; a posting with no truthy mapped
external id is never handed to storage yet still appears in the response;
a posting whose storage fails (swallowed per-posting) also still appears
in the response. -/
theorem C10_response_from_all_fetched (fetched : List JSearchJob)
    (storeOk : MappedJob → Bool) :
    (searchStoreAndRespond fetched storeOk).1.jobs =
      fetched.map mapJSearchJobToDB ∧
    (searchStoreAndRespond fetched storeOk).1.count = fetched.length ∧
    (searchStoreAndRespond fetched storeOk).2 =
      ((fetched.map mapJSearchJobToDB).filter fun r =>
        jsTruthyOpt r.job_id).filter storeOk ∧
    (∀ j ∈ fetched, jsTruthyOpt (mapJSearchJobToDB j).job_id = false →
      mapJSearchJobToDB j ∈ (searchStoreAndRespond fetched storeOk).1.jobs ∧
      mapJSearchJobToDB j ∉ (searchStoreAndRespond fetched storeOk).2) := by
  cases fetched with
  | nil =>
    refine ⟨rfl, rfl, rfl, ?_⟩
    intro j hj
    simp at hj
  | cons x xs =>
    refine ⟨rfl, by simp [searchStoreAndRespond], rfl, ?_⟩
    intro j hj hid
    constructor
    · exact List.mem_map_of_mem mapJSearchJobToDB hj
    · intro hmem
      have h1 := List.mem_filter.mp hmem
      have h2 := (List.mem_filter.mp h1.1).2
      rw [hid] at h2
      exact Bool.false_ne_true h2

/-- Closed instance of `C10_response_from_all_fetched`: a single fetched
posting with no external id appears in the response but not in storage. -/
theorem C10_response_from_all_fetched_witness :
    mapJSearchJobToDB
        { job_id := none, job_title := some "T", employer_name := none,
          job_city := none, job_state := none, job_country := none,
          job_employment_type := none, job_description := some "d",
          job_apply_link := none, job_apply_links := none,
          job_is_remote := none, job_posted_at_datetime_utc := none,
          job_posted_at_timestamp := none, job_min_salary := none,
          job_max_salary := none } ∈
      (searchStoreAndRespond
        [{ job_id := none, job_title := some "T", employer_name := none,
           job_city := none, job_state := none, job_country := none,
           job_employment_type := none, job_description := some "d",
           job_apply_link := none, job_apply_links := none,
           job_is_remote := none, job_posted_at_datetime_utc := none,
           job_posted_at_timestamp := none, job_min_salary := none,
           job_max_salary := none }] (fun _ => true)).1.jobs ∧
    mapJSearchJobToDB
        { job_id := none, job_title := some "T", employer_name := none,
          job_city := none, job_state := none, job_country := none,
          job_employment_type := none, job_description := some "d",
          job_apply_link := none, job_apply_links := none,
          job_is_remote := none, job_posted_at_datetime_utc := none,
          job_posted_at_timestamp := none, job_min_salary := none,
          job_max_salary := none } ∉
      (searchStoreAndRespond
        [{ job_id := none, job_title := some "T", employer_name := none,
           job_city := none, job_state := none, job_country := none,
           job_employment_type := none, job_description := some "d",
           job_apply_link := none, job_apply_links := none,
           job_is_remote := none, job_posted_at_datetime_utc := none,
           job_posted_at_timestamp := none, job_min_salary := none,
           job_max_salary := none }] (fun _ => true)).2 :=
  (C10_response_from_all_fetched _ _).2.2.2 _ (List.mem_singleton.mpr rfl) rfl

/-! ## Claim C3 -/

/-- The count query with no filters supplied (all parameters at the
defaults the endpoint computes for an empty request). -/
def emptyCountQuery : CountQuery :=
  { q := "", employmentType := "", isRemote := false, location := "",
    minSalary := none, datePosted := "", nowMs := 0 }

/-- The active listing of the claim's scenario. -/
def engineerListing : JobRow :=
  { job_id := "x1", title := some "engineer", company := some "ACME ",
    location := none, employment_type := none, description := none,
    description_summary := none, apply_link := none, is_remote := 0,
    posted_date := none, salary_min := none, salary_max := none,
    created_at := "2024-01-01", status := "active",
    expiration_method := "never", expires_at := none }

/-- The saved job of the claim's scenario. -/
def engineerSaved : SavedRow :=
  { title := some "Engineer", company := some "Acme", date := none,
    link := none, notes := none, status := "saved" }

/-- C3 (counterexample): the endpoint's anti-join compares title and
company with SQL `=` under the default binary collation — exact,
case-sensitive, whitespace-sensitive.  For saved
`{title:"Engineer", company:"Acme"}` and active listing
`{title:"engineer", company:"ACME "}` the pair does match under the
claim's trimmed-lowercased comparison, so the claim predicts a total of
`1 - 1 = 0`, yet the endpoint returns 1: the listing is not excluded. -/
theorem C3_count_exact_compare_cex :
    countJobsEndpoint emptyCountQuery [engineerListing] [engineerSaved] = 1 ∧
    savedMatchInsensitive [engineerSaved] engineerListing = true ∧
    ([engineerListing].filter fun jl => passesCountWhere emptyCountQuery jl).length -
      ([engineerListing].filter fun jl =>
        passesCountWhere emptyCountQuery jl &&
        savedMatchInsensitive [engineerSaved] jl).length = 0 := by
  decide

/-- C3 (amended): the count endpoint returns the number of active
listings matching the filters minus the number of those whose
`(title, company)` pair is SQL-equal — exactly equal, case-sensitively
and without trimming — to a saved job with status `saved`; listings
differing only in case or surrounding whitespace from a saved job are
counted, not excluded. -/
theorem C3_count_antijoin_exact (cq : CountQuery) (listings : List JobRow)
    (saved : List SavedRow) :
    countJobsEndpoint cq listings saved =
      (listings.filter fun jl => passesCountWhere cq jl).length -
      (listings.filter fun jl =>
        passesCountWhere cq jl && savedMatchExact saved jl).length :=
  length_filter_and_not (fun jl => passesCountWhere cq jl)
    (fun jl => savedMatchExact saved jl) listings

/-- Transitivity of the binary TEXT collation. -/
theorem charListLe_trans : ∀ {a b c : List Char},
    charListLe a b = true → charListLe b c = true → charListLe a c = true
  | [], _, _, _, _ => rfl
  | _ :: _, [], _, h1, _ => by simp [charListLe] at h1
  | _ :: _, _ :: _, [], _, h2 => by simp [charListLe] at h2
  | x :: xs, y :: ys, z :: zs, h1, h2 => by
    simp only [charListLe] at h1 h2 ⊢
    by_cases hxy : x.toNat < y.toNat
    · by_cases hyz : y.toNat < z.toNat
      · rw [if_pos (by omega)]
      · rw [if_pos hxy] at h1
        rw [if_neg hyz] at h2
        by_cases hzy : z.toNat < y.toNat
        · rw [if_pos hzy] at h2
          exact absurd h2 Bool.false_ne_true
        · rw [if_neg hzy] at h2
          rw [if_pos (by omega)]
    · rw [if_neg hxy] at h1
      by_cases hyx : y.toNat < x.toNat
      · rw [if_pos hyx] at h1
        exact absurd h1 Bool.false_ne_true
      · rw [if_neg hyx] at h1
        by_cases hyz : y.toNat < z.toNat
        · rw [if_pos (by omega)]
        · rw [if_neg hyz] at h2
          by_cases hzy : z.toNat < y.toNat
          · rw [if_pos hzy] at h2
            exact absurd h2 Bool.false_ne_true
          · rw [if_neg hzy] at h2
            rw [if_neg (by omega), if_neg (by omega)]
            exact charListLe_trans h1 h2

/-! ## Claim C6 -/

/-- C6: `markExpired(now)` transitions, in one pass, exactly the active
rows whose expiry is a non-null timestamp `<= now` and returns the number
of rows affected; it is idempotent (a second run at the same instant
changes nothing and reports 0); the set of rows it targets grows with
`now`, and no run ever un-expires a row; and `upsertJobListing` preserves
the status of every stored row — in particular an `expired` row re-ingested
via upsert stays `expired` — while a freshly inserted row starts `active`. -/
theorem C6_markExpired_monotone_lifecycle :
    (∀ now (db : List JobRow),
      (markExpired now db).2 =
        (db.filter fun r =>
          r.status == "active" && sqlLeStr r.expires_at now).length ∧
      ∀ r ∈ db,
        (expiresBy now r = true → { r with status := "expired" } ∈ (markExpired now db).1) ∧
        (expiresBy now r = false → r ∈ (markExpired now db).1)) ∧
    (∀ now db,
      markExpired now (markExpired now db).1 = ((markExpired now db).1, 0)) ∧
    (∀ now1 now2 r, charListLe now1.data now2.data = true →
      expiresBy now1 r = true → expiresBy now2 r = true) ∧
    (∀ now db r, r ∈ db → r.status = "expired" → r ∈ (markExpired now db).1) ∧
    (∀ summarize now db row r2, r2 ∈ (upsertJobListing summarize now db row).1 →
      (∃ r ∈ db, r2.job_id = r.job_id ∧ r2.status = r.status) ∨
      (r2.status = "active" ∧ r2.job_id = row.job_id ∧
        (db.any fun r => r.job_id == row.job_id) = false)) := by
  have hflip : ∀ now (r : JobRow), expiresBy now r = true →
      expiresBy now { r with status := "expired" } = false := by
    intro now r _
    simp [expiresBy]
  refine ⟨?_, ?_, ?_, ?_, ?_⟩
  · intro now db
    constructor
    · simp [markExpired, List.countP_eq_length_filter, expiresBy]
    · intro r hr
      constructor
      · intro he
        simp only [markExpired]
        exact List.mem_map.mpr ⟨r, hr, by simp [he]⟩
      · intro he
        simp only [markExpired]
        exact List.mem_map.mpr ⟨r, hr, by simp [he]⟩
  · intro now db
    have hfix : ∀ r ∈ (markExpired now db).1, expiresBy now r = false := by
      intro r2 hr2
      simp only [markExpired] at hr2
      rcases List.mem_map.mp hr2 with ⟨r, _, heq⟩
      by_cases he : expiresBy now r = true
      · rw [if_pos he] at heq
        rw [← heq]
        exact hflip now r he
      · simp only [Bool.not_eq_true] at he
        rw [if_neg (by simp [he])] at heq
        rw [← heq]
        exact he
    have hmapid : ∀ (l : List JobRow), (∀ x ∈ l, expiresBy now x = false) →
        (l.map fun r =>
          if expiresBy now r = true then { r with status := "expired" } else r) = l := by
      intro l hl
      induction l with
      | nil => rfl
      | cons a t ih =>
        simp only [List.map_cons]
        rw [hl a (List.mem_cons_self a t),
          ih fun x hx => hl x (List.mem_cons_of_mem a hx)]
        simp
    simp only [markExpired, Prod.mk.injEq]
    constructor
    · exact hmapid _ fun x hx => hfix x (by simpa [markExpired] using hx)
    · rw [List.countP_eq_zero]
      intro r hr
      simp [hfix r (by simpa [markExpired] using hr)]
  · intro now1 now2 r hle he
    simp only [expiresBy, Bool.and_eq_true] at he ⊢
    refine ⟨he.1, ?_⟩
    rcases he with ⟨_, h2⟩
    cases hx : r.expires_at with
    | none => rw [hx] at h2; simp [sqlLeStr] at h2
    | some e =>
      rw [hx] at h2
      simp only [sqlLeStr] at h2 ⊢
      exact charListLe_trans h2 hle
  · intro now db r hr hexp
    simp only [markExpired]
    have hne : expiresBy now r = false := by
      simp [expiresBy, hexp]
    refine List.mem_map.mpr ⟨r, hr, by simp [hne]⟩
  · intro summarize now db row r2 hr2
    simp only [upsertJobListing] at hr2
    by_cases hex : (db.any fun r => r.job_id == row.job_id) = true
    · rw [if_pos hex] at hr2
      rcases List.mem_map.mp hr2 with ⟨r, hr, heq⟩
      left
      refine ⟨r, hr, ?_⟩
      by_cases hid : (r.job_id == row.job_id) = true
      · rw [if_pos hid] at heq
        rw [← heq]
        exact ⟨rfl, rfl⟩
      · rw [if_neg hid] at heq
        rw [← heq]
        exact ⟨rfl, rfl⟩
    · simp only [Bool.not_eq_true] at hex
      rw [if_neg (by simp [hex])] at hr2
      rcases List.mem_append.mp hr2 with hin | hnew
      · left
        exact ⟨r2, hin, rfl, rfl⟩
      · right
        rcases List.mem_singleton.mp hnew with rfl
        exact ⟨rfl, rfl, hex⟩

/-- The active row used in the closed instance below. -/
def expirySampleActive : JobRow :=
  { job_id := "a", title := none, company := none, location := none,
    employment_type := none, description := none, description_summary := none,
    apply_link := none, is_remote := 0, posted_date := none, salary_min := none,
    salary_max := none, created_at := "2024-01-01T00:00:00.000Z",
    status := "active", expiration_method := "posted_date",
    expires_at := some "2024-01-10T00:00:00.000Z" }

/-- The expired row used in the closed instance below. -/
def expirySampleExpired : JobRow :=
  { expirySampleActive with job_id := "b", status := "expired" }

/-- Closed instance of `C6_markExpired_monotone_lifecycle`: a concrete
active row past its expiry is flipped by the sweep, a concrete expired
row survives a later sweep untouched, and the targeting predicate is
monotone between two concrete instants. -/
theorem C6_markExpired_monotone_lifecycle_witness :
    { expirySampleActive with status := "expired" } ∈
      (markExpired "2024-02-01T00:00:00.000Z" [expirySampleActive]).1 ∧
    expirySampleExpired ∈
      (markExpired "2024-03-01T00:00:00.000Z" [expirySampleExpired]).1 ∧
    expiresBy "2024-03-01T00:00:00.000Z" expirySampleActive = true :=
  ⟨((C6_markExpired_monotone_lifecycle.1 "2024-02-01T00:00:00.000Z" _).2 _
      (List.mem_singleton.mpr rfl)).1 (by decide),
   C6_markExpired_monotone_lifecycle.2.2.2.1 "2024-03-01T00:00:00.000Z" _ _
      (List.mem_singleton.mpr rfl) rfl,
   C6_markExpired_monotone_lifecycle.2.2.1 "2024-02-01T00:00:00.000Z"
      "2024-03-01T00:00:00.000Z" _ (by decide) (by decide)⟩

/-! ## Claim C5 -/

/-- C5: upserting a listing whose external id already exists keeps
exactly one stored row for that id; that row takes every incoming field
and the freshly computed expiration, keeps the original creation
timestamp, and keeps an existing non-null cached summary — the
summarizer is not invoked — rather than replacing it; and upserting a
brand-new external id appends a single row whose status is `active`. -/
theorem C5_upsert_overwrite_preserve
    (summarize : String → Option String) (now : String)
    (db : List JobRow) (row : InRow) (r0 : JobRow) (s : String)
    (hone : db.filter (fun r => r.job_id == row.job_id) = [r0])
    (hsum : r0.description_summary = some s) :
    ((upsertJobListing summarize now db row).1.filter
        (fun r => r.job_id == row.job_id) =
      [applyConflictUpdate row
        (if jsTruthyOpt row.description then some s else none)
        (calculateJobExpiration row.posted_date (some now)) r0]) ∧
    (∀ r1 : JobRow,
      r1 = applyConflictUpdate row
        (if jsTruthyOpt row.description then some s else none)
        (calculateJobExpiration row.posted_date (some now)) r0 →
      r1.title = row.title ∧ r1.company = row.company ∧
      r1.location = row.location ∧ r1.employment_type = row.employment_type ∧
      r1.description = row.description ∧ r1.apply_link = row.apply_link ∧
      r1.is_remote = row.is_remote ∧ r1.posted_date = row.posted_date ∧
      r1.salary_min = row.salary_min ∧ r1.salary_max = row.salary_max ∧
      r1.expiration_method =
        (calculateJobExpiration row.posted_date (some now)).2 ∧
      r1.expires_at = (calculateJobExpiration row.posted_date (some now)).1 ∧
      r1.created_at = r0.created_at ∧
      r1.description_summary = some s) ∧
    (upsertJobListing summarize now db row).2 = false ∧
    (upsertJobListing summarize now db row).1.length = db.length ∧
    (∀ row2 : InRow, (db.any fun r => r.job_id == row2.job_id) = false →
      ∃ nr : JobRow, (upsertJobListing summarize now db row2).1 = db ++ [nr] ∧
        nr.status = "active" ∧ nr.job_id = row2.job_id ∧
        nr.created_at = now) := by
  have hfind : db.find? (fun r => r.job_id == row.job_id) = some r0 :=
    find?_of_filter_singleton _ db r0 hone
  have hmem : r0 ∈ db.filter (fun r => r.job_id == row.job_id) := by
    rw [hone]; exact List.mem_singleton.mpr rfl
  have hany : (db.any fun r => r.job_id == row.job_id) = true :=
    List.any_eq_true.mpr ⟨r0, (List.mem_filter.mp hmem).1, (List.mem_filter.mp hmem).2⟩
  have hidkeep : ∀ (ns : Option String) (exp : Option String × String) (r : JobRow),
      (applyConflictUpdate row ns exp r).job_id = r.job_id := fun _ _ _ => rfl
  have hstep : summaryStepOf summarize db row =
      ((if jsTruthyOpt row.description then some s else none), false) := by
    unfold summaryStepOf
    by_cases hd : jsTruthyOpt row.description = true
    · rw [if_pos hd, if_pos hd, hfind]
      simp [hsum]
    · simp only [Bool.not_eq_true] at hd
      rw [hd]
      simp
  refine ⟨?_, ?_, ?_, ?_, ?_⟩
  · show (upsertJobListing summarize now db row).1.filter _ = _
    simp only [upsertJobListing, hany, if_pos, hstep]
    rw [filter_map_pred_comm _ _ (fun r => by
      by_cases h : (r.job_id == row.job_id) = true
      · rw [if_pos h, hidkeep]
      · rw [if_neg h]), hone]
    simp only [List.map_cons, List.map_nil]
    rw [if_pos (List.mem_filter.mp hmem).2]
  · intro r1 hr1
    subst hr1
    refine ⟨rfl, rfl, rfl, rfl, rfl, rfl, rfl, rfl, rfl, rfl, rfl, rfl, rfl, ?_⟩
    by_cases hd : jsTruthyOpt row.description = true
    · simp [applyConflictUpdate, hd]
    · simp only [Bool.not_eq_true] at hd
      simp [applyConflictUpdate, hd, hsum]
  · simp only [upsertJobListing, hstep]
  · simp only [upsertJobListing, hany, if_pos, hstep, List.length_map]
  · intro row2 hnew
    refine ⟨mkInsertRow row2 (summaryStepOf summarize db row2).1
      (calculateJobExpiration row2.posted_date (some now)) now, ?_, rfl, rfl, rfl⟩
    simp only [upsertJobListing, hnew]
    simp

/-- The stored row used in the closed instance of C5. -/
def upsertSampleRow : JobRow :=
  { job_id := "j1", title := some "Old title", company := some "Acme",
    location := none, employment_type := none, description := some "old text",
    description_summary := some "cached", apply_link := none, is_remote := 0,
    posted_date := none, salary_min := none, salary_max := none,
    created_at := "2024-01-01T00:00:00.000Z", status := "active",
    expiration_method := "created_at",
    expires_at := some "2024-01-15T00:00:00.000Z" }

/-- The incoming listing used in the closed instance of C5 (same id). -/
def upsertSampleIn : InRow :=
  { job_id := "j1", title := some "New title", company := some "Acme",
    location := some "Remote", employment_type := none,
    description := some "new text", apply_link := none, is_remote := 1,
    posted_date := none, salary_min := none, salary_max := none }

/-- The incoming listing used in the closed instance of C5 (fresh id). -/
def upsertSampleIn2 : InRow :=
  { upsertSampleIn with job_id := "j2" }

/-- Closed instance of `C5_upsert_overwrite_preserve`: re-upserting id
`j1` keeps one row, does not invoke the summarizer, and keeps the cached
summary; upserting the fresh id `j2` appends an `active` row. -/
theorem C5_upsert_overwrite_preserve_witness :
    ((upsertJobListing (fun _ => some "fresh") "2024-05-05T00:00:00.000Z"
        [upsertSampleRow] upsertSampleIn).1.filter
        (fun r => r.job_id == upsertSampleIn.job_id) =
      [applyConflictUpdate upsertSampleIn
        (if jsTruthyOpt upsertSampleIn.description then some "cached" else none)
        (calculateJobExpiration upsertSampleIn.posted_date
          (some "2024-05-05T00:00:00.000Z")) upsertSampleRow]) ∧
    (upsertJobListing (fun _ => some "fresh") "2024-05-05T00:00:00.000Z"
      [upsertSampleRow] upsertSampleIn).2 = false ∧
    (∃ nr : JobRow,
      (upsertJobListing (fun _ => some "fresh") "2024-05-05T00:00:00.000Z"
        [upsertSampleRow] upsertSampleIn2).1 = [upsertSampleRow] ++ [nr] ∧
      nr.status = "active" ∧ nr.job_id = upsertSampleIn2.job_id ∧
      nr.created_at = "2024-05-05T00:00:00.000Z") :=
  ⟨(C5_upsert_overwrite_preserve (fun _ => some "fresh")
      "2024-05-05T00:00:00.000Z" [upsertSampleRow] upsertSampleIn
      upsertSampleRow "cached" (by decide) rfl).1,
   (C5_upsert_overwrite_preserve (fun _ => some "fresh")
      "2024-05-05T00:00:00.000Z" [upsertSampleRow] upsertSampleIn
      upsertSampleRow "cached" (by decide) rfl).2.2.1,
   (C5_upsert_overwrite_preserve (fun _ => some "fresh")
      "2024-05-05T00:00:00.000Z" [upsertSampleRow] upsertSampleIn
      upsertSampleRow "cached" (by decide) rfl).2.2.2.2 upsertSampleIn2
      (by decide)⟩

/-! ## Claim C8 -/

/-- No word-bounded pattern matches inside the empty text: there is no
word boundary in it. -/
theorem wbTest_nil (kw : List Char) : wbTest kw [] = false := by
  simp [wbTest, wbMatchAt, boundaryAt, wordAt]

/-- `extractKeywords` of the empty text finds nothing, whatever the
keyword list. -/
theorem extractKeywords_empty (kws : List String) :
    extractKeywords "" kws = [] := by
  unfold extractKeywords
  rw [List.filter_eq_nil_iff]
  intro kw _
  have : normalizeChars ("" : String).data = ([] : List Char) := rfl
  rw [this, wbTest_nil]
  simp

/-- The skill extraction of the empty text is empty in every category. -/
theorem extractAllSkills_empty :
    extractAllSkills "" =
      { technical := [], languages := [], frameworks := [], tools := [],
        softSkills := [], education := [], experience := [], all := [] } := by
  unfold extractAllSkills
  rw [extractKeywords_empty, extractKeywords_empty, extractKeywords_empty,
    extractKeywords_empty, extractKeywords_empty, extractKeywords_empty]
  rfl

/-- C8: an axis whose job-side keyword set is empty scores exactly 100
whatever the resume says, on all four axes; with an empty job
description every job-side set is empty, so the whole breakdown is 100
and the final score is 100. -/
theorem C8_empty_axis_scores_100 (resumeText jobDesc jobTitle : String) :
    ((extractAllSkills jobDesc).technical = [] →
      (calculateMatchScore resumeText jobDesc jobTitle).breakdown.technical = 100) ∧
    ((extractAllSkills jobDesc).softSkills = [] →
      (calculateMatchScore resumeText jobDesc jobTitle).breakdown.softSkills = 100) ∧
    ((extractAllSkills jobDesc).experience = [] →
      (calculateMatchScore resumeText jobDesc jobTitle).breakdown.experience = 100) ∧
    ((extractAllSkills jobDesc).education = [] →
      (calculateMatchScore resumeText jobDesc jobTitle).breakdown.education = 100) ∧
    (jobDesc = "" →
      (calculateMatchScore resumeText jobDesc jobTitle).breakdown =
        { technical := 100, softSkills := 100, experience := 100, education := 100 } ∧
      (calculateMatchScore resumeText jobDesc jobTitle).score = 100) := by
  refine ⟨?_, ?_, ?_, ?_, ?_⟩
  · intro h
    simp only [calculateMatchScore, h]
    norm_num [jsRound]
  · intro h
    simp only [calculateMatchScore, h]
    norm_num [jsRound]
  · intro h
    simp only [calculateMatchScore, h]
    norm_num [jsRound]
  · intro h
    simp only [calculateMatchScore, h]
    norm_num [jsRound]
  · intro h
    subst h
    simp only [calculateMatchScore, extractAllSkills_empty]
    norm_num [jsRound]

/-- Closed instance of `C8_empty_axis_scores_100` at a non-empty resume,
an empty description and a non-empty title. -/
theorem C8_empty_axis_scores_100_witness :
    (calculateMatchScore "python developer" "" "Senior Python").breakdown =
      { technical := 100, softSkills := 100, experience := 100, education := 100 } ∧
    (calculateMatchScore "python developer" "" "Senior Python").score = 100 :=
  (C8_empty_axis_scores_100 "python developer" "" "Senior Python").2.2.2.2 rfl

/-! ## Claim C9 -/

/-- A normal character is fixed by `jsToLower` (no kept character is an
uppercase letter). -/
theorem jsToLower_fix_normal (c : Char) (h : normalChar c = true) :
    jsToLower c = c := by
  simp only [normalChar, isKeptChar, isSpaceJS, Bool.or_eq_true,
    Bool.and_eq_true, Bool.not_eq_true', beq_iff_eq, decide_eq_true_eq,
    Bool.or_eq_false_iff, beq_eq_false_iff_ne, ne_eq,
    decide_eq_false_iff_not] at h
  unfold jsToLower
  rw [if_neg]
  simp only [Bool.and_eq_true, decide_eq_true_eq, not_and, not_le]
  intro h65
  omega

/-- A normal character is fixed by `replaceDisallowed`. -/
theorem replaceDisallowed_fix_normal (c : Char) (h : normalChar c = true) :
    replaceDisallowed c = c := by
  unfold replaceDisallowed
  rw [if_pos]
  simp only [normalChar, Bool.or_eq_true, Bool.and_eq_true, beq_iff_eq] at h
  rcases h with h | ⟨h1, _⟩
  · simp [isKeptChar, isSpaceJS, h]
  · exact h1

/-- Mapping a function that fixes every element is the identity. -/
theorem map_fix {α : Type} (f : α → α) (l : List α)
    (h : ∀ a ∈ l, f a = a) : l.map f = l := by
  induction l with
  | nil => rfl
  | cons a t ih =>
    rw [List.map_cons, h a (List.mem_cons_self a t),
      ih fun x hx => h x (List.mem_cons_of_mem a hx)]

/-- `replaceDisallowed` always produces a kept character. -/
theorem isKeptChar_replaceDisallowed (c : Char) :
    isKeptChar (replaceDisallowed c) = true := by
  unfold replaceDisallowed
  by_cases h : isKeptChar c = true
  · rw [if_pos h]; exact h
  · rw [if_neg h]; decide

/-- The collapse pass started in a whitespace run never emits a leading
space. -/
theorem collapseWS_true_head (l : List Char) :
    headIsSpace (collapseWS true l) = false := by
  induction l with
  | nil => rfl
  | cons c rest ih =>
    unfold collapseWS
    by_cases hc : isSpaceJS c = true
    · rw [if_pos hc, if_pos rfl]
      exact ih
    · rw [if_neg hc]
      simp only [headIsSpace]
      simp only [Bool.not_eq_true] at hc
      exact hc

/-- The collapse pass never emits two adjacent whitespace characters. -/
theorem collapseWS_noAdj (l : List Char) :
    ∀ b, noAdjSpace (collapseWS b l) = true := by
  induction l with
  | nil => intro b; rfl
  | cons c rest ih =>
    intro b
    unfold collapseWS
    by_cases hc : isSpaceJS c = true
    · rw [if_pos hc]
      by_cases hb : b = true
      · rw [if_pos hb]
        exact ih true
      · simp only [Bool.not_eq_true] at hb
        rw [hb, if_neg Bool.false_ne_true]
        simp only [noAdjSpace, Bool.and_eq_true, Bool.not_eq_true']
        rw [collapseWS_true_head rest, ih true]
        simp
    · rw [if_neg hc]
      simp only [noAdjSpace, Bool.and_eq_true, Bool.not_eq_true']
      rw [ih false]
      simp only [Bool.not_eq_true] at hc
      simp [hc]

/-- Every character the collapse pass emits is a space or a non-space
character of its input. -/
theorem collapseWS_mem (l : List Char) :
    ∀ b c, c ∈ collapseWS b l → c = ' ' ∨ (c ∈ l ∧ isSpaceJS c = false) := by
  induction l with
  | nil => intro b c hc; simp [collapseWS] at hc
  | cons a rest ih =>
    intro b c hc
    unfold collapseWS at hc
    by_cases ha : isSpaceJS a = true
    · rw [if_pos ha] at hc
      by_cases hb : b = true
      · rw [if_pos hb] at hc
        rcases ih true c hc with h | ⟨h1, h2⟩
        · exact Or.inl h
        · exact Or.inr ⟨List.mem_cons_of_mem a h1, h2⟩
      · simp only [Bool.not_eq_true] at hb
        rw [hb, if_neg Bool.false_ne_true] at hc
        rcases List.mem_cons.mp hc with h | h
        · exact Or.inl h
        · rcases ih true c h with h2 | ⟨h3, h4⟩
          · exact Or.inl h2
          · exact Or.inr ⟨List.mem_cons_of_mem a h3, h4⟩
    · rw [if_neg ha] at hc
      rcases List.mem_cons.mp hc with h | h
      · subst h
        simp only [Bool.not_eq_true] at ha
        exact Or.inr ⟨List.mem_cons_self c rest, ha⟩
      · rcases ih false c h with h2 | ⟨h3, h4⟩
        · exact Or.inl h2
        · exact Or.inr ⟨List.mem_cons_of_mem a h3, h4⟩

/-- On a list of normal characters with no adjacent spaces (and, when the
run flag is set, no leading space), the collapse pass is the identity. -/
theorem collapseWS_fix (l : List Char) :
    ∀ b, (∀ c ∈ l, normalChar c = true) → noAdjSpace l = true →
    (b = true → headIsSpace l = false) → collapseWS b l = l := by
  induction l with
  | nil => intro b _ _ _; rfl
  | cons c rest ih =>
    intro b hnorm hadj hb
    have hadj2 : noAdjSpace rest = true := by
      simp only [noAdjSpace, Bool.and_eq_true] at hadj
      exact hadj.2
    have hpair : (isSpaceJS c && headIsSpace rest) = false := by
      simp only [noAdjSpace, Bool.and_eq_true, Bool.not_eq_true'] at hadj
      exact hadj.1
    unfold collapseWS
    by_cases hc : isSpaceJS c = true
    · have hbf : b = false := by
        by_cases h : b = true
        · have := hb h
          simp only [headIsSpace] at this
          rw [hc] at this
          exact absurd this (by decide)
        · simp only [Bool.not_eq_true] at h
          exact h
      subst hbf
      rw [if_pos hc, if_neg Bool.false_ne_true]
      have hsp : c = ' ' := by
        have := hnorm c (List.mem_cons_self c rest)
        simp only [normalChar, Bool.or_eq_true, Bool.and_eq_true,
          Bool.not_eq_true', beq_iff_eq] at this
        rcases this with h | ⟨_, h2⟩
        · rw [← Char.ofNat_toNat c, h]
        · rw [hc] at h2
          exact absurd h2 (by decide)
      have hresthead : headIsSpace rest = false := by
        rw [hc] at hpair
        simpa using hpair
      rw [ih true (fun x hx => hnorm x (List.mem_cons_of_mem c hx)) hadj2
        (fun _ => hresthead), hsp]
    · rw [if_neg hc]
      rw [ih false (fun x hx => hnorm x (List.mem_cons_of_mem c hx)) hadj2
        (fun h => absurd h Bool.false_ne_true)]

/-- `trimRight` keeps a suffix-free subset of its input's characters. -/
theorem trimRight_mem (l : List Char) : ∀ c ∈ trimRight l, c ∈ l := by
  induction l with
  | nil => intro c hc; simp [trimRight] at hc
  | cons a rest ih =>
    intro c hc
    unfold trimRight at hc
    cases hr : trimRight rest with
    | nil =>
      rw [hr] at hc
      by_cases ha : isSpaceJS a = true
      · rw [if_pos ha] at hc
        simp at hc
      · rw [if_neg ha] at hc
        rcases List.mem_singleton.mp hc with rfl
        exact List.mem_cons_self c rest
    | cons x xs =>
      rw [hr] at hc
      rcases List.mem_cons.mp hc with rfl | h
      · exact List.mem_cons_self c rest
      · exact List.mem_cons_of_mem a (ih c (hr ▸ h))

/-- `trimRight` output is empty or begins with its input's head. -/
theorem trimRight_head (l : List Char) :
    trimRight l = [] ∨ ∃ t, trimRight l = l.head?.getD ' ' :: t ∧ l ≠ [] := by
  cases l with
  | nil => exact Or.inl rfl
  | cons a rest =>
    unfold trimRight
    cases hr : trimRight rest with
    | nil =>
      by_cases ha : isSpaceJS a = true
      · rw [if_pos ha]
        exact Or.inl rfl
      · rw [if_neg ha]
        exact Or.inr ⟨[], rfl, by simp⟩
    | cons x xs =>
      exact Or.inr ⟨x :: xs, rfl, by simp⟩

/-- `trimRight` never leaves trailing whitespace. -/
theorem trimRight_last (l : List Char) : lastIsSpace (trimRight l) = false := by
  induction l with
  | nil => rfl
  | cons a rest ih =>
    unfold trimRight
    cases hr : trimRight rest with
    | nil =>
      by_cases ha : isSpaceJS a = true
      · rw [if_pos ha]
        rfl
      · rw [if_neg ha]
        simp only [lastIsSpace]
        simpa using ha
    | cons x xs =>
      rw [hr] at ih
      show lastIsSpace (a :: x :: xs) = false
      exact ih

/-- `trimRight` preserves the no-adjacent-spaces invariant. -/
theorem trimRight_noAdj (l : List Char) (h : noAdjSpace l = true) :
    noAdjSpace (trimRight l) = true := by
  induction l with
  | nil => rfl
  | cons a rest ih =>
    have hrest : noAdjSpace rest = true := by
      simp only [noAdjSpace, Bool.and_eq_true] at h
      exact h.2
    have hpair : (isSpaceJS a && headIsSpace rest) = false := by
      simp only [noAdjSpace, Bool.and_eq_true, Bool.not_eq_true'] at h
      exact h.1
    unfold trimRight
    cases hr : trimRight rest with
    | nil =>
      by_cases ha : isSpaceJS a = true
      · rw [if_pos ha]; rfl
      · rw [if_neg ha]
        simp [noAdjSpace, headIsSpace]
    | cons x xs =>
      have hta := ih hrest
      rw [hr] at hta
      simp only [noAdjSpace, Bool.and_eq_true, Bool.not_eq_true'] at hta ⊢
      refine ⟨?_, hta.1, hta.2⟩
      rcases trimRight_head rest with h2 | ⟨t, h2, hne⟩
      · rw [h2] at hr
        simp at hr
      · rw [h2] at hr
        injection hr with hx _
        cases rest with
        | nil => simp at hne
        | cons b brest =>
          simp only [List.head?, Option.getD] at hx
          subst hx
          simp only [headIsSpace]
          simp only [headIsSpace] at hpair
          exact hpair

/-- A list without trailing whitespace is fixed by `trimRight`. -/
theorem trimRight_fix (l : List Char) (h : lastIsSpace l = false) :
    trimRight l = l := by
  induction l with
  | nil => rfl
  | cons a rest ih =>
    unfold trimRight
    cases rest with
    | nil =>
      simp only [lastIsSpace] at h
      simp [trimRight, h]
    | cons b brest =>
      have hlast : lastIsSpace (b :: brest) = false := by
        simpa [lastIsSpace] using h
      rw [ih hlast]

/-- `dropWhile` leaves no leading whitespace behind. -/
theorem dropWhile_head_false (l : List Char) :
    headIsSpace (l.dropWhile isSpaceJS) = false := by
  induction l with
  | nil => rfl
  | cons a rest ih =>
    by_cases ha : isSpaceJS a = true
    · rw [List.dropWhile_cons_of_pos ha]
      exact ih
    · rw [List.dropWhile_cons_of_neg ha]
      simp only [headIsSpace]
      simpa using ha

/-- `dropWhile` preserves the no-adjacent-spaces invariant. -/
theorem dropWhile_noAdj (l : List Char) (h : noAdjSpace l = true) :
    noAdjSpace (l.dropWhile isSpaceJS) = true := by
  induction l with
  | nil => rfl
  | cons a rest ih =>
    have hrest : noAdjSpace rest = true := by
      simp only [noAdjSpace, Bool.and_eq_true] at h
      exact h.2
    by_cases ha : isSpaceJS a = true
    · rw [List.dropWhile_cons_of_pos ha]
      exact ih hrest
    · rw [List.dropWhile_cons_of_neg ha]
      exact h

/-- A list with no leading whitespace is fixed by `dropWhile`. -/
theorem dropWhile_fix (l : List Char) (h : headIsSpace l = false) :
    l.dropWhile isSpaceJS = l := by
  cases l with
  | nil => rfl
  | cons a rest =>
    simp only [headIsSpace] at h
    rw [List.dropWhile_cons_of_neg (by simp [h])]

/-- `trimRight` preserves the absence of leading whitespace. -/
theorem trimRight_headIsSpace (l : List Char) (h : headIsSpace l = false) :
    headIsSpace (trimRight l) = false := by
  rcases trimRight_head l with h2 | ⟨t, h2, hne⟩
  · rw [h2]; rfl
  · rw [h2]
    cases l with
    | nil => simp at hne
    | cons a rest =>
      simp only [List.head?, Option.getD, headIsSpace]
      simpa [headIsSpace] using h

/-- The output of `normalizeChars` is in normal form: only normal
characters, no adjacent spaces, no leading and no trailing space. -/
theorem normalizeChars_normal (l : List Char) :
    (∀ c ∈ normalizeChars l, normalChar c = true) ∧
    noAdjSpace (normalizeChars l) = true ∧
    headIsSpace (normalizeChars l) = false ∧
    lastIsSpace (normalizeChars l) = false := by
  have hkept : ∀ c ∈ (l.map jsToLower).map replaceDisallowed,
      isKeptChar c = true := by
    intro c hc
    rcases List.mem_map.mp hc with ⟨x, _, hx⟩
    rw [← hx]
    exact isKeptChar_replaceDisallowed x
  have hmem3 : ∀ c ∈ collapseWS false ((l.map jsToLower).map replaceDisallowed),
      normalChar c = true := by
    intro c hc
    rcases collapseWS_mem _ false c hc with h | ⟨h1, h2⟩
    · rw [h]; decide
    · simp [normalChar, hkept c h1, h2]
  have hadj3 := collapseWS_noAdj ((l.map jsToLower).map replaceDisallowed) false
  unfold normalizeChars jsTrim
  refine ⟨?_, ?_, ?_, ?_⟩
  · intro c hc
    exact hmem3 c ((List.dropWhile_sublist _).subset (trimRight_mem _ c hc))
  · exact trimRight_noAdj _ (dropWhile_noAdj _ hadj3)
  · exact trimRight_headIsSpace _ (dropWhile_head_false _)
  · exact trimRight_last _

/-- A normal-form character list is a fixed point of `normalizeChars`. -/
theorem normalizeChars_fix (l : List Char)
    (hmem : ∀ c ∈ l, normalChar c = true) (hadj : noAdjSpace l = true)
    (hhead : headIsSpace l = false) (hlast : lastIsSpace l = false) :
    normalizeChars l = l := by
  unfold normalizeChars jsTrim
  rw [map_fix jsToLower l fun c hc => jsToLower_fix_normal c (hmem c hc),
    map_fix replaceDisallowed l fun c hc => replaceDisallowed_fix_normal c (hmem c hc),
    collapseWS_fix l false hmem hadj fun h => absurd h Bool.false_ne_true,
    dropWhile_fix l hhead, trimRight_fix l hlast]

/-- C9: `normalizeText` is idempotent on every JavaScript input —
normalizing the normalization of any value (string or not) gives the
same string — and a non-string or empty input yields the empty string
via the early-return guard rather than an error. -/
theorem C9_normalizeText_idempotent (v : JSValue) :
    normalizeTextJS (.str (normalizeTextJS v)) = normalizeTextJS v ∧
    normalizeTextJS .nonStringVal = "" ∧
    normalizeTextJS (.str "") = "" := by
  refine ⟨?_, rfl, rfl⟩
  cases v with
  | nonStringVal => rfl
  | str s =>
    by_cases hs : s = ""
    · subst hs
      rfl
    · have hns : (s == "") = false := by simp [hs]
      simp only [normalizeTextJS, hns, Bool.false_eq_true, if_false]
      by_cases hr : normalizeText s = ""
      · rw [hr]
        simp
      · have hrb : (normalizeText s == "") = false := by simp [hr]
        rw [hrb]
        simp only [Bool.false_eq_true, if_false]
        have hA := normalizeChars_normal s.data
        show normalizeText ⟨normalizeChars s.data⟩ = normalizeText s
        unfold normalizeText
        congr 1
        exact normalizeChars_fix _ hA.1 hA.2.1 hA.2.2.1 hA.2.2.2

/-! ## Claim C4 -/

/-- Loop invariant of `fetchLoop`: starting from the filtered prefix of
the first `offset` database rows, with enough fuel to scan the rest of
the database, the loop ends either having filtered the entire database
or holding a filtered prefix of at least `target + 8` listings. -/
theorem fetchLoop_spec (db : List JobRow) (saved : List SavedRow)
    (target : Nat) :
    ∀ fuel offset, db.length ≤ offset + 40 * fuel →
    (fetchLoop db saved target fuel offset
        ((db.take offset).filter fun j => !(isSavedListing saved j)) =
      db.filter fun j => !(isSavedListing saved j)) ∨
    (target + 8 ≤ (fetchLoop db saved target fuel offset
        ((db.take offset).filter fun j => !(isSavedListing saved j))).length ∧
     ∃ m, fetchLoop db saved target fuel offset
        ((db.take offset).filter fun j => !(isSavedListing saved j)) =
       (db.take m).filter fun j => !(isSavedListing saved j)) := by
  intro fuel
  induction fuel with
  | zero =>
    intro offset hlen
    simp only [Nat.mul_zero, Nat.add_zero] at hlen
    rw [fetchLoop, List.take_of_length_le hlen]
    exact Or.inl rfl
  | succ fuel ih =>
    intro offset hlen
    rw [fetchLoop]
    by_cases hfull :
        ((db.take offset).filter fun j => !(isSavedListing saved j)).length <
          target + 8
    · rw [if_pos hfull]
      by_cases hbatch : ((db.drop offset).take 40).isEmpty = true
      · rw [if_pos hbatch]
        have hdrop : db.drop offset = [] := by
          rcases List.take_eq_nil_iff.mp (List.isEmpty_iff.mp hbatch) with h | h
          · omega
          · exact h
        have : db.length ≤ offset := by
          have := congrArg List.length hdrop
          simp only [List.length_drop, List.length_nil] at this
          omega
        rw [List.take_of_length_le this]
        exact Or.inl rfl
      · rw [if_neg hbatch]
        have hjoin :
            ((db.take offset).filter fun j => !(isSavedListing saved j)) ++
              (((db.drop offset).take 40).filter fun j =>
                !(isSavedListing saved j)) =
            (db.take (offset + 40)).filter fun j => !(isSavedListing saved j) := by
          rw [← List.filter_append, ← List.take_add]
        by_cases hshort : ((db.drop offset).take 40).length < 40
        · rw [if_pos hshort, hjoin]
          have hlen2 : db.length < offset + 40 := by
            rw [List.length_take, List.length_drop] at hshort
            omega
          rw [List.take_of_length_le (by omega)]
          exact Or.inl rfl
        · rw [if_neg hshort, hjoin]
          exact ih (offset + 40) (by omega)
    · rw [if_neg hfull]
      refine Or.inr ⟨by omega, offset, rfl⟩

/-- C4 (amended): provided the whole listing set fits inside the page
assembler's safety cap of 20 batches of 40 rows (`N ≤ 800`), every page
`p ≥ 1` is exactly the slice `[(p-1)*8, p*8)` of the unsaved listings in
database (ingestion-descending) order — so concatenating the pages up to
exhaustion yields exactly the unsaved active listings, in order, with no
duplicates and no omissions — and a listing matching a saved job with
status `saved` (title and company equal after trimming and lowercasing)
never appears in any page. -/
theorem C4_pages_are_chunks (db : List JobRow) (savedAll : List SavedRow)
    (p : Nat) (hN : db.length ≤ 800) (hp : 1 ≤ p) :
    fetchJobsPage db savedAll p =
      ((unsavedListings db savedAll).drop ((p - 1) * 8)).take 8 ∧
    ∀ j, isSavedListing (savedAll.filter fun x => x.status == "saved") j = true →
      j ∉ fetchJobsPage db savedAll p := by
  have hchunk : fetchJobsPage db savedAll p =
      ((unsavedListings db savedAll).drop ((p - 1) * 8)).take 8 := by
    simp only [fetchJobsPage, unsavedListings]
    have h0 : ([] : List JobRow) =
        (db.take 0).filter fun j =>
          !(isSavedListing (savedAll.filter fun x => x.status == "saved") j) := rfl
    rw [h0]
    rcases fetchLoop_spec db (savedAll.filter fun x => x.status == "saved")
        ((p - 1) * 8) 20 0 (by omega) with heq | ⟨hlen, m, heq⟩
    · rw [heq]
    · rw [heq] at hlen ⊢
      have hsplit : (db.filter fun j =>
          !(isSavedListing (savedAll.filter fun x => x.status == "saved") j)) =
          ((db.take m).filter fun j =>
            !(isSavedListing (savedAll.filter fun x => x.status == "saved") j)) ++
          ((db.drop m).filter fun j =>
            !(isSavedListing (savedAll.filter fun x => x.status == "saved") j)) := by
        rw [← List.filter_append, List.take_append_drop]
      rw [hsplit, List.drop_append_of_le_length (by omega),
        List.take_append_of_le_length (by rw [List.length_drop]; omega)]
  refine ⟨hchunk, ?_⟩
  intro j hj hmem
  rw [hchunk] at hmem
  have hmemF : j ∈ unsavedListings db savedAll :=
    List.drop_subset _ _ (List.take_subset _ _ hmem)
  unfold unsavedListings at hmemF
  have := (List.mem_filter.mp hmemF).2
  rw [hj] at this
  simp at this

/-- The saved tracker entry of the cap counterexample. -/
def capSaved : SavedRow :=
  { title := some "a", company := some "b", date := none, link := none,
    notes := none, status := "saved" }

/-- An active listing matching the saved entry. -/
def capSavedListing : JobRow :=
  { job_id := "s", title := some "a", company := some "b", location := none,
    employment_type := none, description := none, description_summary := none,
    apply_link := none, is_remote := 0, posted_date := none, salary_min := none,
    salary_max := none, created_at := "", status := "active",
    expiration_method := "never", expires_at := none }

/-- An unsaved active listing, distinguished by index. -/
def capFreshListing (i : Nat) : JobRow :=
  { job_id := toString i, title := some (toString i), company := some "c",
    location := none, employment_type := none, description := none,
    description_summary := none, apply_link := none, is_remote := 0,
    posted_date := none, salary_min := none, salary_max := none,
    created_at := "", status := "active", expiration_method := "never",
    expires_at := none }

/-- 840 active listings: 800 copies matching the saved entry followed by
40 unsaved ones. -/
def capDb : List JobRow :=
  List.replicate 800 capSavedListing ++ (List.range 40).map capFreshListing

set_option maxRecDepth 100000 in
/-- C4 (counterexample): with 840 active listings whose first 800 all
match one saved job, the batch loop exhausts its 20-fetch safety cap
before reaching the 40 unsaved listings, so page 1 comes back empty —
"exhaustion" from the pager's point of view — while 40 unsaved active
listings exist and are never produced by any page: concatenating the
pages up to exhaustion omits them, contradicting the claim. -/
theorem C4_cap_starvation_cex :
    fetchJobsPage capDb [capSaved] 1 = [] ∧
    (unsavedListings capDb [capSaved]).length = 40 ∧
    unsavedListings capDb [capSaved] ≠ [] := by
  refine ⟨by decide, by decide, ?_⟩
  intro h
  have := congrArg List.length h
  rw [show (unsavedListings capDb [capSaved]).length = 40 by decide] at this
  simp at this

/-- Closed instance of `C4_pages_are_chunks` on a two-listing database
with one listing saved: page 1 is the 8-slice of the unsaved listings
and the saved listing appears in no page. -/
theorem C4_pages_are_chunks_witness :
    fetchJobsPage [capSavedListing, capFreshListing 0] [capSaved] 1 =
      ((unsavedListings [capSavedListing, capFreshListing 0] [capSaved]).drop
        ((1 - 1) * 8)).take 8 ∧
    ∀ j, isSavedListing ([capSaved].filter fun x => x.status == "saved") j = true →
      j ∉ fetchJobsPage [capSavedListing, capFreshListing 0] [capSaved] 1 :=
  C4_pages_are_chunks [capSavedListing, capFreshListing 0] [capSaved] 1
    (by decide) (by decide)
